import Mathlib

/-!
Verification of the quest-tracker storage layer (`DatabaseStorage` in
`server/routes.ts`, tables in `shared/schema.ts`).

The storage layer is embedded shallowly:

* the Postgres tables become Lean structures; the `profile` singleton, the
  `quests` / `quest_groups` catalogs and the `quest_progress` table (unique
  per quest id) become fields of a `State` record, with the keyed tables
  represented as association lists from id strings to records;
* `new Date()` timestamps are modelled by a monotone `clock : Nat` field:
  each operation that calls `new Date()` uses the current clock value as the
  timestamp and then advances the clock (real timestamps are strictly
  increasing across calls);
* every storage method that throws becomes a function into `Except`;
  each method of the source validates its preconditions before issuing any
  write (the writes themselves run inside one SQL transaction), so an error
  result carries no state change;
* JS numbers holding integer columns become `Int`; `Math.floor(x / 800)`
  becomes `Int.fdiv x 800` (floor division, exactly JS `Math.floor` of a
  division); `Math.max` / `Math.min` / SQL `GREATEST` become `max` / `min`;
* columns that the completion engine never reads (titles, descriptions,
  difficulty, recurrence / deadline / penalty toggles, `createdAt`, row ids)
  are omitted: no claim and no modelled code path depends on them.
-/

/-- Names of the five character attributes (the whitelist in the source). -/
inductive AttrName where
  | physique | mental | success | social | skills
deriving DecidableEq, Repr

/-- The `attributes` jsonb column of the `profile` table: one integer per
attribute name. -/
structure Attributes where
  physique : Int
  mental : Int
  success : Int
  social : Int
  skills : Int
deriving DecidableEq, Repr

/-- Dynamic read `attributes[name]` of the source. -/
def Attributes.get (a : Attributes) : AttrName → Int
  | .physique => a.physique
  | .mental => a.mental
  | .success => a.success
  | .social => a.social
  | .skills => a.skills

/-- Dynamic write `{ ...attributes, [name]: v }` of the source. -/
def Attributes.setAttr (a : Attributes) : AttrName → Int → Attributes
  | .physique, v => { a with physique := v }
  | .mental, v => { a with mental := v }
  | .success, v => { a with success := v }
  | .social, v => { a with social := v }
  | .skills, v => { a with skills := v }

/-- The singleton `profile` row (schema.ts `profile` table). -/
structure Profile where
  level : Int
  xp : Int
  cumulativeXp : Int
  availablePoints : Int
  attributes : Attributes
deriving DecidableEq, Repr

/-- Default profile created lazily by `getProfile` (level 1, xp 0, all
attributes 10, no available points; `cumulativeXp` takes the schema
default 0). -/
def defaultProfile : Profile :=
  { level := 1, xp := 0, cumulativeXp := 0, availablePoints := 0,
    attributes := { physique := 10, mental := 10, success := 10, social := 10, skills := 10 } }

/-- A `quest_groups` row (engine-relevant fields). -/
structure QuestGroup where
  name : String
  description : Option String
  icon : String
deriving DecidableEq, Repr

/-- A `quests` row (the fields the completion engine and the cascade logic
read; informational columns omitted). -/
structure Quest where
  groupId : Option String
  xpReward : Int
  attributePointReward : Int
  targetAttribute : Option AttrName
deriving DecidableEq, Repr

/-- A `quest_progress` row (unique per quest id). -/
structure ProgressRow where
  progress : Int
  completed : Bool
  completedAt : Option Nat
  isArchived : Bool
  archivedAt : Option Nat
  archiveReason : Option String
  canUndo : Bool
deriving DecidableEq, Repr

/-- The database state seen by `DatabaseStorage`: the profile singleton (as
materialized by `getProfile`), the three keyed tables, and the clock
modelling `new Date()`. -/
structure State where
  profile : Profile
  groups : List (String × QuestGroup)
  quests : List (String × Quest)
  progress : List (String × ProgressRow)
  clock : Nat
deriving DecidableEq, Repr

/-- Errors thrown by the storage methods: `Quest not found`,
`Quest not completed`, `Quest not archived`, `Quest progress not found`,
and a database error surfaced by a SQL statement that cannot execute
(which aborts and rolls back the enclosing transaction).
The HTTP layer maps `notFound` to 404 (NotFound), the quest-state errors
to 400 (InvalidState), and anything else — `sqlError` included — to 500. -/
inductive StoreError where
  | notFound
  | notCompleted
  | notArchived
  | progressNotFound
  | sqlError
deriving DecidableEq, Repr

/-- Lookup by key in a keyed table (SQL `where id = k`, first match). -/
def lookupEntry {α : Type} : List (String × α) → String → Option α
  | [], _ => none
  | e :: t, k => if e.1 = k then some e.2 else lookupEntry t k

/-- Update the rows whose key is `k` (SQL `update ... where id = k`). -/
def setEntry {α : Type} : List (String × α) → String → α → List (String × α)
  | [], _, _ => []
  | e :: t, k, v => (if e.1 = k then (k, v) else e) :: setEntry t k v

/-- Delete the rows whose key is `k` (SQL `delete ... where id = k`). -/
def removeEntry {α : Type} : List (String × α) → String → List (String × α)
  | [], _ => []
  | e :: t, k => if e.1 = k then removeEntry t k else e :: removeEntry t k

/-- Math.floor(xp / 800) + 1: the fixed level curve used by the engine. -/
def levelForXp (xp : Int) : Int :=
  xp.fdiv 800 + 1

theorem levelForXp_eq_ediv (xp : Int) : levelForXp xp = xp / 800 + 1 := by
  unfold levelForXp
  rw [Int.fdiv_eq_ediv _ (by omega : (0 : Int) ≤ 800)]

/-- DatabaseStorage.getQuest. -/
def getQuest (s : State) (questId : String) : Option Quest :=
  lookupEntry s.quests questId

/-- DatabaseStorage.getQuestProgress. -/
def getQuestProgress (s : State) (questId : String) : Option ProgressRow :=
  lookupEntry s.progress questId

/-- Profile credit applied by `completeQuest` when the call actually flips
the row to completed: add `xpReward` to xp and cumulativeXp, recompute the
level from the 800-XP curve, credit the target attribute (clamped to 100)
or the available points, and credit one available point per level gained. -/
def creditProfile (quest : Quest) (p : Profile) : Profile :=
  let currentXP := p.xp
  let newXP := currentXP + quest.xpReward
  let currentLevel := levelForXp currentXP
  let newLevel := levelForXp newXP
  let levelIncrease := newLevel - currentLevel
  let newCumulativeXP := p.cumulativeXp + quest.xpReward
  let base :=
    { p with xp := p.xp + quest.xpReward, level := newLevel, cumulativeXp := newCumulativeXP }
  let withReward :=
    if quest.attributePointReward > 0 then
      match quest.targetAttribute with
      | some a =>
        let attributeValue := base.attributes.get a
        let newAttributeValue := min 100 (attributeValue + quest.attributePointReward)
        { base with attributes := base.attributes.setAttr a newAttributeValue }
      | none =>
        { base with availablePoints := base.availablePoints + quest.attributePointReward }
    else base
  if levelIncrease > 0 then
    { withReward with availablePoints := withReward.availablePoints + levelIncrease }
  else withReward

/-- Fresh progress row inserted by `completeQuest` when no row exists
(`canUndo` and the archive fields take their schema defaults). -/
def freshRow (now : Nat) : ProgressRow :=
  { progress := 1, completed := true, completedAt := some now,
    isArchived := false, archivedAt := none, archiveReason := none, canUndo := true }

/-- CASE-WHEN update applied by `completeQuest` to a not-yet-completed row. -/
def flipRow (r0 : ProgressRow) (now : Nat) : ProgressRow :=
  { r0 with progress := r0.progress + 1, completed := true, completedAt := some now }

/-- DatabaseStorage.completeQuest: atomic upsert of the progress row with
CASE-WHEN guards, then a profile credit only when `wasJustCompleted`
(detected by comparing the stored `completedAt` with this call's
timestamp) is true. -/
def completeQuest (s : State) (questId : String) : Except StoreError (ProgressRow × State) :=
  match lookupEntry s.quests questId with
  | none => .error .notFound
  | some quest =>
    let now := s.clock
    let upsert : ProgressRow × List (String × ProgressRow) × Bool :=
      match lookupEntry s.progress questId with
      | none =>
        (freshRow now, s.progress ++ [(questId, freshRow now)], decide (some now = some now))
      | some r0 =>
        if r0.completed then
          (r0, s.progress, decide (r0.completedAt = some now))
        else
          (flipRow r0 now, setEntry s.progress questId (flipRow r0 now),
            decide (some now = some now))
    let row := upsert.1
    let progressTable := upsert.2.1
    let wasJustCompleted := upsert.2.2
    let newProfile : Profile :=
      if row.completed && wasJustCompleted then creditProfile quest s.profile
      else s.profile
    .ok (row, { s with profile := newProfile, progress := progressTable, clock := s.clock + 1 })

/-- Profile update that `cancelQuestCompletion`'s UPDATE applies on the
paths where it can execute (no target attribute, or a nonpositive
attribute-point reward): debit current xp (floored at 0), recompute the
level, debit the available points when `attributePointReward > 0`
(plain subtraction, no floor in that branch), then debit the level-up
bonus points under `GREATEST(0, _)` when the level dropped.
`cumulativeXp` and the attributes are not touched on these paths. -/
def cancelDebitProfile (quest : Quest) (p : Profile) : Profile :=
  let currentXP := p.xp
  let newXP := max 0 (currentXP - quest.xpReward)
  let currentLevel := levelForXp currentXP
  let newLevel := levelForXp newXP
  let levelDecrease := currentLevel - newLevel
  let base := { p with xp := max 0 newXP, level := newLevel }
  let withRollback :=
    if quest.attributePointReward > 0 then
      { base with availablePoints := p.availablePoints - quest.attributePointReward }
    else base
  if levelDecrease > 0 then
    { withRollback with
      availablePoints := max 0 (withRollback.availablePoints - levelDecrease) }
  else withRollback

/-- Row reset applied by `cancelQuestCompletion`: `progress=0`,
`completed=false`, `completedAt=null`; archive fields untouched. -/
def cancelResetRow (r0 : ProgressRow) : ProgressRow :=
  { r0 with progress := 0, completed := false, completedAt := none }

/-- DatabaseStorage.cancelQuestCompletion: requires the quest and a completed
progress row; resets the row and debits current xp / level and the credited
points. When `attributePointReward > 0` and a `targetAttribute` is set, the
source builds the attribute debit with a raw jsonb_set whose interpolations
render as bind parameters placed inside the quoted string literals of the
statement, so that UPDATE can never execute: the statement fails, the
transaction (including the progress-row reset) rolls back, and the call
throws. This is modelled as `sqlError` with no state change. On the other
paths the update succeeds; the available-points debit is a plain
subtraction and only the level-decrease branch applies `GREATEST(0, _)`. -/
def cancelQuestCompletion (s : State) (questId : String) :
    Except StoreError (ProgressRow × State) :=
  match lookupEntry s.quests questId with
  | none => .error .notFound
  | some quest =>
    match lookupEntry s.progress questId with
    | none => .error .notCompleted
    | some r0 =>
      if r0.completed = false then .error .notCompleted
      else if quest.attributePointReward > 0 ∧ quest.targetAttribute.isSome then
        .error .sqlError
      else
        .ok (cancelResetRow r0,
          { s with profile := cancelDebitProfile quest s.profile,
                   progress := setEntry s.progress questId (cancelResetRow r0) })

/-- DatabaseStorage.archiveQuest: requires a progress row; stamps the archive
fields. No profile side effects. -/
def archiveQuest (s : State) (questId : String) (reason : String) :
    Except StoreError (ProgressRow × State) :=
  match lookupEntry s.progress questId with
  | none => .error .progressNotFound
  | some r0 =>
    let row := { r0 with isArchived := true, archivedAt := some s.clock,
                         archiveReason := some reason, canUndo := true }
    .ok (row, { s with progress := setEntry s.progress questId row, clock := s.clock + 1 })

/-- DatabaseStorage.restoreQuestFromArchive: clears the archive fields of an
existing progress row. No profile side effects. -/
def restoreQuestFromArchive (s : State) (questId : String) :
    Except StoreError (ProgressRow × State) :=
  match lookupEntry s.progress questId with
  | none => .error .progressNotFound
  | some r0 =>
    let row := { r0 with isArchived := false, archivedAt := none,
                         archiveReason := none, canUndo := true }
    .ok (row, { s with progress := setEntry s.progress questId row })

/-- DatabaseStorage.deleteArchivedQuest: the source begins with
`if (!existingProgress?.isArchived) throw new Error('Quest not archived')`,
so both a missing row and a non-archived row produce the same
`Quest not archived` error; only an archived row is deleted. -/
def deleteArchivedQuest (s : State) (questId : String) : Except StoreError State :=
  match lookupEntry s.progress questId with
  | none => .error .notArchived
  | some r0 =>
    if r0.isArchived then .ok { s with progress := removeEntry s.progress questId }
    else .error .notArchived

/-- Profile rollback applied by `undoQuestCompletion`: debit `cumulativeXp`
by `xpReward` (floored at 0) and debit the target attribute or the
available points (floored at 0). Current xp and level are not touched. -/
def undoDebitProfile (quest : Quest) (p : Profile) : Profile :=
  let newCumulativeXP := max 0 (p.cumulativeXp - quest.xpReward)
  let base := { p with cumulativeXp := newCumulativeXP }
  if quest.attributePointReward > 0 then
    match quest.targetAttribute with
    | some a =>
      let attributeValue := p.attributes.get a
      let newAttributeValue := max 0 (attributeValue - quest.attributePointReward)
      { base with attributes := base.attributes.setAttr a newAttributeValue }
    | none =>
      { base with availablePoints := max 0 (p.availablePoints - quest.attributePointReward) }
  else base

/-- Row reset applied by `undoQuestCompletion`: back to `Inactive`, archive
fields cleared (`canUndo` is left as stored). -/
def undoResetRow (r0 : ProgressRow) : ProgressRow :=
  { r0 with progress := 0, completed := false, completedAt := none,
            isArchived := false, archivedAt := none, archiveReason := none }

/-- DatabaseStorage.undoQuestCompletion: requires the quest and a completed
progress row (archived or not); resets the row including the archive
fields, and debits cumulativeXp and the credited points, each floored
at 0. Current xp and level are not touched. -/
def undoQuestCompletion (s : State) (questId : String) :
    Except StoreError (ProgressRow × State) :=
  match lookupEntry s.quests questId with
  | none => .error .notFound
  | some quest =>
    match lookupEntry s.progress questId with
    | none => .error .notCompleted
    | some r0 =>
      if r0.completed = false then .error .notCompleted
      else
        .ok (undoResetRow r0, { s with profile := undoDebitProfile quest s.profile,
                                       progress := setEntry s.progress questId (undoResetRow r0) })

/-- DatabaseStorage.deleteQuestGroup: deletes the quests of the group with a
direct `delete from quests where group_id = id`, then deletes the group row.
It never touches the `quest_progress` table. Returns whether a group row
was deleted. The `quest_progress.quest_id` foreign key is not modelled:
under it the real quest delete would throw (removing nothing) whenever a
deleted quest still has a progress row; the model renders the statement as
the source writes it, quests removed and progress rows left behind —
either way the progress rows are not cascaded. -/
def deleteQuestGroup (s : State) (groupId : String) : Bool × State :=
  let questsLeft := s.quests.filter fun e => decide (e.2.groupId ≠ some groupId)
  let existed := (lookupEntry s.groups groupId).isSome
  (existed, { s with quests := questsLeft, groups := removeEntry s.groups groupId })

/-- DatabaseStorage.deleteQuest: deletes the quest's progress row first, then
the quest row. Returns whether a quest row was deleted. -/
def deleteQuest (s : State) (questId : String) : Bool × State :=
  let existed := (lookupEntry s.quests questId).isSome
  (existed, { s with progress := removeEntry s.progress questId,
                     quests := removeEntry s.quests questId })

/-- Operation alphabet of claim C2: the three profile-mutating engine calls. -/
inductive EngineOp where
  | complete (questId : String)
  | cancel (questId : String)
  | undo (questId : String)
deriving DecidableEq, Repr

/-- Run one engine call against the store. A thrown error leaves the store
unchanged: each method validates its preconditions before issuing any
write, and the writes run inside a single transaction. -/
def applyEngineOp (s : State) : EngineOp → State
  | .complete q =>
    match completeQuest s q with
    | .ok r => r.2
    | .error _ => s
  | .cancel q =>
    match cancelQuestCompletion s q with
    | .ok r => r.2
    | .error _ => s
  | .undo q =>
    match undoQuestCompletion s q with
    | .ok r => r.2
    | .error _ => s

/-- Operation alphabet of claim C10: all six progress-row engine calls. -/
inductive FullOp where
  | complete (questId : String)
  | cancel (questId : String)
  | archive (questId : String) (reason : String)
  | restore (questId : String)
  | deleteArchived (questId : String)
  | undo (questId : String)
deriving DecidableEq, Repr

/-- Run one of the six engine calls; errors leave the store unchanged. -/
def applyFullOp (s : State) : FullOp → State
  | .complete q =>
    match completeQuest s q with
    | .ok r => r.2
    | .error _ => s
  | .cancel q =>
    match cancelQuestCompletion s q with
    | .ok r => r.2
    | .error _ => s
  | .archive q reason =>
    match archiveQuest s q reason with
    | .ok r => r.2
    | .error _ => s
  | .restore q =>
    match restoreQuestFromArchive s q with
    | .ok r => r.2
    | .error _ => s
  | .deleteArchived q =>
    match deleteArchivedQuest s q with
    | .ok s2 => s2
    | .error _ => s
  | .undo q =>
    match undoQuestCompletion s q with
    | .ok r => r.2
    | .error _ => s

section AssocLemmas

variable {α : Type}

theorem lookupEntry_cons (e : String × α) (t : List (String × α)) (k : String) :
    lookupEntry (e :: t) k = if e.1 = k then some e.2 else lookupEntry t k := rfl

theorem lookupEntry_mem {m : List (String × α)} {k : String} {v : α}
    (h : lookupEntry m k = some v) : (k, v) ∈ m := by
  induction m with
  | nil => simp [lookupEntry] at h
  | cons e t ih =>
    rw [lookupEntry_cons] at h
    by_cases he : e.1 = k
    · simp [he] at h
      cases e
      simp_all
    · simp [he] at h
      right
      exact ih h

theorem lookupEntry_setEntry_self {m : List (String × α)} {k : String} {v0 : α} (v : α)
    (h : lookupEntry m k = some v0) : lookupEntry (setEntry m k v) k = some v := by
  induction m with
  | nil => simp [lookupEntry] at h
  | cons e t ih =>
    rw [lookupEntry_cons] at h
    by_cases he : e.1 = k
    · simp [setEntry, he, lookupEntry]
    · simp [he] at h
      simp [setEntry, he, lookupEntry, ih h]

theorem lookupEntry_setEntry_ne {m : List (String × α)} {k k' : String} (v : α)
    (h : k' ≠ k) : lookupEntry (setEntry m k v) k' = lookupEntry m k' := by
  induction m with
  | nil => simp [setEntry]
  | cons e t ih =>
    by_cases he : e.1 = k
    · simp [setEntry, he, lookupEntry, Ne.symm h, ih]
    · simp [setEntry, he, lookupEntry, ih]

theorem lookupEntry_append_self {m : List (String × α)} {k : String} (v : α)
    (h : lookupEntry m k = none) : lookupEntry (m ++ [(k, v)]) k = some v := by
  induction m with
  | nil => simp [lookupEntry]
  | cons e t ih =>
    rw [lookupEntry_cons] at h
    by_cases he : e.1 = k
    · simp [he] at h
    · simp [he] at h
      simp [lookupEntry_cons, he, ih h]

theorem lookupEntry_append_ne (m : List (String × α)) {k k' : String} (v : α)
    (h : k' ≠ k) : lookupEntry (m ++ [(k, v)]) k' = lookupEntry m k' := by
  induction m with
  | nil => simp [lookupEntry, Ne.symm h]
  | cons e t ih =>
    by_cases he : e.1 = k'
    · simp [lookupEntry_cons, he, ih]
    · simp [lookupEntry_cons, he, ih]

theorem mem_setEntry {m : List (String × α)} {k : String} {v : α} {e : String × α}
    (h : e ∈ setEntry m k v) : e ∈ m ∨ e = (k, v) := by
  induction m with
  | nil => simp [setEntry] at h
  | cons e0 t ih =>
    simp only [setEntry, List.mem_cons] at h
    rcases h with h | h
    · by_cases he : e0.1 = k
      · simp [he] at h
        right
        exact h
      · simp [he] at h
        left
        simp [h]
    · rcases ih h with h2 | h2
      · left
        exact List.mem_cons_of_mem _ h2
      · right
        exact h2

theorem mem_removeEntry {m : List (String × α)} {k : String} {e : String × α}
    (h : e ∈ removeEntry m k) : e ∈ m := by
  induction m with
  | nil => simp [removeEntry] at h
  | cons e0 t ih =>
    by_cases he : e0.1 = k
    · simp only [removeEntry, if_pos he] at h
      exact List.mem_cons_of_mem _ (ih h)
    · simp only [removeEntry, if_neg he, List.mem_cons] at h
      rcases h with h | h
      · exact h ▸ List.mem_cons_self _ _
      · exact List.mem_cons_of_mem _ (ih h)

theorem lookupEntry_removeEntry_self (m : List (String × α)) (k : String) :
    lookupEntry (removeEntry m k) k = none := by
  induction m with
  | nil => rfl
  | cons e t ih =>
    by_cases he : e.1 = k
    · simpa [removeEntry, he] using ih
    · simpa [removeEntry, he, lookupEntry_cons] using ih

end AssocLemmas

section AttrLemmas

theorem Attributes.get_setAttr (a : Attributes) (i j : AttrName) (v : Int) :
    (a.setAttr i v).get j = if i = j then v else a.get j := by
  cases i <;> cases j <;> simp [Attributes.get, Attributes.setAttr]

/-- All five attribute values lie in the interval `[0, 100]`. -/
def AttrsOK (a : Attributes) : Prop :=
  (0 ≤ a.physique ∧ a.physique ≤ 100) ∧ (0 ≤ a.mental ∧ a.mental ≤ 100) ∧
  (0 ≤ a.success ∧ a.success ≤ 100) ∧ (0 ≤ a.social ∧ a.social ≤ 100) ∧
  (0 ≤ a.skills ∧ a.skills ≤ 100)

instance (a : Attributes) : Decidable (AttrsOK a) := by
  unfold AttrsOK
  infer_instance

theorem AttrsOK.get {a : Attributes} (h : AttrsOK a) (i : AttrName) :
    0 ≤ a.get i ∧ a.get i ≤ 100 := by
  obtain ⟨h1, h2, h3, h4, h5⟩ := h
  cases i <;> simpa [Attributes.get]

theorem AttrsOK.setAttr {a : Attributes} (h : AttrsOK a) {i : AttrName} {v : Int}
    (h0 : 0 ≤ v) (h100 : v ≤ 100) : AttrsOK (a.setAttr i v) := by
  obtain ⟨h1, h2, h3, h4, h5⟩ := h
  cases i <;> exact ⟨by simp_all [Attributes.setAttr], by simp_all [Attributes.setAttr],
    by simp_all [Attributes.setAttr], by simp_all [Attributes.setAttr],
    by simp_all [Attributes.setAttr]⟩

end AttrLemmas

section ProfileUpdateLemmas

theorem creditProfile_xp (quest : Quest) (p : Profile) :
    (creditProfile quest p).xp = p.xp + quest.xpReward := by
  unfold creditProfile
  by_cases h1 : quest.attributePointReward > 0 <;>
    rcases h2 : quest.targetAttribute with _ | a <;>
      by_cases h3 : 0 < levelForXp (p.xp + quest.xpReward) - levelForXp p.xp <;>
        simp [h1, h2, h3]

theorem creditProfile_cumulativeXp (quest : Quest) (p : Profile) :
    (creditProfile quest p).cumulativeXp = p.cumulativeXp + quest.xpReward := by
  unfold creditProfile
  by_cases h1 : quest.attributePointReward > 0 <;>
    rcases h2 : quest.targetAttribute with _ | a <;>
      by_cases h3 : 0 < levelForXp (p.xp + quest.xpReward) - levelForXp p.xp <;>
        simp [h1, h2, h3]

theorem creditProfile_level (quest : Quest) (p : Profile) :
    (creditProfile quest p).level = levelForXp (p.xp + quest.xpReward) := by
  unfold creditProfile
  by_cases h1 : quest.attributePointReward > 0 <;>
    rcases h2 : quest.targetAttribute with _ | a <;>
      by_cases h3 : 0 < levelForXp (p.xp + quest.xpReward) - levelForXp p.xp <;>
        simp [h1, h2, h3]

theorem creditProfile_availablePoints (quest : Quest) (p : Profile) :
    (creditProfile quest p).availablePoints =
      p.availablePoints
        + (if quest.targetAttribute = none ∧ 0 < quest.attributePointReward then
            quest.attributePointReward else 0)
        + (if 0 < levelForXp (p.xp + quest.xpReward) - levelForXp p.xp then
            levelForXp (p.xp + quest.xpReward) - levelForXp p.xp else 0) := by
  unfold creditProfile
  by_cases h1 : quest.attributePointReward > 0 <;>
    rcases h2 : quest.targetAttribute with _ | a <;>
      by_cases h3 : 0 < levelForXp (p.xp + quest.xpReward) - levelForXp p.xp <;>
        simp [h1, h2, h3]

theorem creditProfile_attr (quest : Quest) (p : Profile) (j : AttrName) :
    (creditProfile quest p).attributes.get j =
      if quest.targetAttribute = some j ∧ 0 < quest.attributePointReward then
        min 100 (p.attributes.get j + quest.attributePointReward)
      else p.attributes.get j := by
  unfold creditProfile
  by_cases h1 : quest.attributePointReward > 0 <;>
    rcases h2 : quest.targetAttribute with _ | a <;>
      by_cases h3 : 0 < levelForXp (p.xp + quest.xpReward) - levelForXp p.xp <;>
        simp [h1, h2, h3, Attributes.get_setAttr]
  all_goals by_cases haj : a = j <;> simp [haj]

theorem cancelDebitProfile_xp (quest : Quest) (p : Profile) :
    (cancelDebitProfile quest p).xp = max 0 (p.xp - quest.xpReward) := by
  unfold cancelDebitProfile
  by_cases h1 : quest.attributePointReward > 0 <;>
    by_cases h3 : 0 < levelForXp p.xp - levelForXp (max 0 (p.xp - quest.xpReward)) <;>
      simp [h1, h3]

theorem cancelDebitProfile_level (quest : Quest) (p : Profile) :
    (cancelDebitProfile quest p).level = levelForXp (max 0 (p.xp - quest.xpReward)) := by
  unfold cancelDebitProfile
  by_cases h1 : quest.attributePointReward > 0 <;>
    by_cases h3 : 0 < levelForXp p.xp - levelForXp (max 0 (p.xp - quest.xpReward)) <;>
      simp [h1, h3]

theorem cancelDebitProfile_cumulativeXp (quest : Quest) (p : Profile) :
    (cancelDebitProfile quest p).cumulativeXp = p.cumulativeXp := by
  unfold cancelDebitProfile
  by_cases h1 : quest.attributePointReward > 0 <;>
    by_cases h3 : 0 < levelForXp p.xp - levelForXp (max 0 (p.xp - quest.xpReward)) <;>
      simp [h1, h3]

theorem cancelDebitProfile_availablePoints (quest : Quest) (p : Profile) :
    (cancelDebitProfile quest p).availablePoints =
      (if 0 < levelForXp p.xp - levelForXp (max 0 (p.xp - quest.xpReward)) then
        max 0 ((p.availablePoints
          - (if 0 < quest.attributePointReward then quest.attributePointReward else 0))
          - (levelForXp p.xp - levelForXp (max 0 (p.xp - quest.xpReward))))
      else
        p.availablePoints
          - (if 0 < quest.attributePointReward then quest.attributePointReward else 0)) := by
  unfold cancelDebitProfile
  by_cases h1 : quest.attributePointReward > 0 <;>
    by_cases h3 : 0 < levelForXp p.xp - levelForXp (max 0 (p.xp - quest.xpReward)) <;>
      simp [h1, h3]

theorem cancelDebitProfile_attributes (quest : Quest) (p : Profile) :
    (cancelDebitProfile quest p).attributes = p.attributes := by
  unfold cancelDebitProfile
  by_cases h1 : quest.attributePointReward > 0 <;>
    by_cases h3 : 0 < levelForXp p.xp - levelForXp (max 0 (p.xp - quest.xpReward)) <;>
      simp [h1, h3]

theorem undoDebitProfile_xp (quest : Quest) (p : Profile) :
    (undoDebitProfile quest p).xp = p.xp := by
  unfold undoDebitProfile
  by_cases h1 : quest.attributePointReward > 0 <;>
    rcases h2 : quest.targetAttribute with _ | a <;> simp [h1, h2]

theorem undoDebitProfile_level (quest : Quest) (p : Profile) :
    (undoDebitProfile quest p).level = p.level := by
  unfold undoDebitProfile
  by_cases h1 : quest.attributePointReward > 0 <;>
    rcases h2 : quest.targetAttribute with _ | a <;> simp [h1, h2]

theorem undoDebitProfile_cumulativeXp (quest : Quest) (p : Profile) :
    (undoDebitProfile quest p).cumulativeXp = max 0 (p.cumulativeXp - quest.xpReward) := by
  unfold undoDebitProfile
  by_cases h1 : quest.attributePointReward > 0 <;>
    rcases h2 : quest.targetAttribute with _ | a <;> simp [h1, h2]

theorem undoDebitProfile_availablePoints (quest : Quest) (p : Profile) :
    (undoDebitProfile quest p).availablePoints =
      if quest.targetAttribute = none ∧ 0 < quest.attributePointReward then
        max 0 (p.availablePoints - quest.attributePointReward)
      else p.availablePoints := by
  unfold undoDebitProfile
  by_cases h1 : quest.attributePointReward > 0 <;>
    rcases h2 : quest.targetAttribute with _ | a <;> simp [h1, h2]

theorem undoDebitProfile_attr (quest : Quest) (p : Profile) (j : AttrName) :
    (undoDebitProfile quest p).attributes.get j =
      if quest.targetAttribute = some j ∧ 0 < quest.attributePointReward then
        max 0 (p.attributes.get j - quest.attributePointReward)
      else p.attributes.get j := by
  unfold undoDebitProfile
  by_cases h1 : quest.attributePointReward > 0 <;>
    rcases h2 : quest.targetAttribute with _ | a <;>
      simp [h1, h2, Attributes.get_setAttr]
  all_goals by_cases haj : a = j <;> simp [haj]

end ProfileUpdateLemmas

section OpLemmas

variable {s : State} {questId : String} {quest : Quest} {r0 : ProgressRow}

theorem completeQuest_notFound (h : lookupEntry s.quests questId = none) :
    completeQuest s questId = .error .notFound := by
  unfold completeQuest
  rw [h]

theorem completeQuest_new (hq : lookupEntry s.quests questId = some quest)
    (hr : lookupEntry s.progress questId = none) :
    completeQuest s questId = .ok (freshRow s.clock,
      { s with profile := creditProfile quest s.profile,
               progress := s.progress ++ [(questId, freshRow s.clock)],
               clock := s.clock + 1 }) := by
  unfold completeQuest
  rw [hq, hr]
  simp [freshRow]

theorem completeQuest_flip (hq : lookupEntry s.quests questId = some quest)
    (hr : lookupEntry s.progress questId = some r0) (hc : r0.completed = false) :
    completeQuest s questId = .ok (flipRow r0 s.clock,
      { s with profile := creditProfile quest s.profile,
               progress := setEntry s.progress questId (flipRow r0 s.clock),
               clock := s.clock + 1 }) := by
  unfold completeQuest
  rw [hq, hr]
  simp [hc, flipRow]

theorem completeQuest_noop (hq : lookupEntry s.quests questId = some quest)
    (hr : lookupEntry s.progress questId = some r0) (hc : r0.completed = true)
    (hts : r0.completedAt ≠ some s.clock) :
    completeQuest s questId = .ok (r0, { s with clock := s.clock + 1 }) := by
  unfold completeQuest
  rw [hq, hr]
  simp [hc, hts]

theorem completeQuest_staleStamp (hq : lookupEntry s.quests questId = some quest)
    (hr : lookupEntry s.progress questId = some r0) (hc : r0.completed = true)
    (hts : r0.completedAt = some s.clock) :
    completeQuest s questId = .ok (r0,
      { s with profile := creditProfile quest s.profile, clock := s.clock + 1 }) := by
  unfold completeQuest
  rw [hq, hr]
  simp [hc, hts]

theorem cancelQuestCompletion_notFound (h : lookupEntry s.quests questId = none) :
    cancelQuestCompletion s questId = .error .notFound := by
  unfold cancelQuestCompletion
  rw [h]

theorem cancelQuestCompletion_noRow (hq : lookupEntry s.quests questId = some quest)
    (hr : lookupEntry s.progress questId = none) :
    cancelQuestCompletion s questId = .error .notCompleted := by
  unfold cancelQuestCompletion
  rw [hq, hr]

theorem cancelQuestCompletion_notCompleted (hq : lookupEntry s.quests questId = some quest)
    (hr : lookupEntry s.progress questId = some r0) (hc : r0.completed = false) :
    cancelQuestCompletion s questId = .error .notCompleted := by
  unfold cancelQuestCompletion
  rw [hq, hr]
  simp [hc]

theorem cancelQuestCompletion_sqlError (hq : lookupEntry s.quests questId = some quest)
    (hr : lookupEntry s.progress questId = some r0) (hc : r0.completed = true)
    (hg : quest.attributePointReward > 0 ∧ quest.targetAttribute.isSome) :
    cancelQuestCompletion s questId = .error .sqlError := by
  unfold cancelQuestCompletion
  rw [hq, hr]
  simp [hc, hg.1, hg.2]

theorem cancelQuestCompletion_ok (hq : lookupEntry s.quests questId = some quest)
    (hr : lookupEntry s.progress questId = some r0) (hc : r0.completed = true)
    (hg : ¬(quest.attributePointReward > 0 ∧ quest.targetAttribute.isSome)) :
    cancelQuestCompletion s questId = .ok (cancelResetRow r0,
      { s with profile := cancelDebitProfile quest s.profile,
               progress := setEntry s.progress questId (cancelResetRow r0) }) := by
  unfold cancelQuestCompletion
  rw [hq, hr]
  simp [hc, hg]

theorem undoQuestCompletion_notFound (h : lookupEntry s.quests questId = none) :
    undoQuestCompletion s questId = .error .notFound := by
  unfold undoQuestCompletion
  rw [h]

theorem undoQuestCompletion_noRow (hq : lookupEntry s.quests questId = some quest)
    (hr : lookupEntry s.progress questId = none) :
    undoQuestCompletion s questId = .error .notCompleted := by
  unfold undoQuestCompletion
  rw [hq, hr]

theorem undoQuestCompletion_notCompleted (hq : lookupEntry s.quests questId = some quest)
    (hr : lookupEntry s.progress questId = some r0) (hc : r0.completed = false) :
    undoQuestCompletion s questId = .error .notCompleted := by
  unfold undoQuestCompletion
  rw [hq, hr]
  simp [hc]

theorem undoQuestCompletion_ok (hq : lookupEntry s.quests questId = some quest)
    (hr : lookupEntry s.progress questId = some r0) (hc : r0.completed = true) :
    undoQuestCompletion s questId = .ok (undoResetRow r0,
      { s with profile := undoDebitProfile quest s.profile,
               progress := setEntry s.progress questId (undoResetRow r0) }) := by
  unfold undoQuestCompletion
  rw [hq, hr]
  simp [hc]

theorem archiveQuest_noRow (hr : lookupEntry s.progress questId = none) (reason : String) :
    archiveQuest s questId reason = .error .progressNotFound := by
  unfold archiveQuest
  rw [hr]

theorem archiveQuest_ok (hr : lookupEntry s.progress questId = some r0) (reason : String) :
    archiveQuest s questId reason = .ok
      ({ r0 with isArchived := true, archivedAt := some s.clock,
                 archiveReason := some reason, canUndo := true },
       { s with progress := setEntry s.progress questId
                  { r0 with isArchived := true, archivedAt := some s.clock,
                            archiveReason := some reason, canUndo := true },
                clock := s.clock + 1 }) := by
  unfold archiveQuest
  rw [hr]

theorem restoreQuestFromArchive_noRow (hr : lookupEntry s.progress questId = none) :
    restoreQuestFromArchive s questId = .error .progressNotFound := by
  unfold restoreQuestFromArchive
  rw [hr]

theorem restoreQuestFromArchive_ok (hr : lookupEntry s.progress questId = some r0) :
    restoreQuestFromArchive s questId = .ok
      ({ r0 with isArchived := false, archivedAt := none,
                 archiveReason := none, canUndo := true },
       { s with progress := setEntry s.progress questId
                  { r0 with isArchived := false, archivedAt := none,
                            archiveReason := none, canUndo := true } }) := by
  unfold restoreQuestFromArchive
  rw [hr]

theorem deleteArchivedQuest_noRow (hr : lookupEntry s.progress questId = none) :
    deleteArchivedQuest s questId = .error .notArchived := by
  unfold deleteArchivedQuest
  rw [hr]

theorem deleteArchivedQuest_notArchived (hr : lookupEntry s.progress questId = some r0)
    (ha : r0.isArchived = false) :
    deleteArchivedQuest s questId = .error .notArchived := by
  unfold deleteArchivedQuest
  rw [hr]
  simp [ha]

theorem deleteArchivedQuest_ok (hr : lookupEntry s.progress questId = some r0)
    (ha : r0.isArchived = true) :
    deleteArchivedQuest s questId = .ok { s with progress := removeEntry s.progress questId } := by
  unfold deleteArchivedQuest
  rw [hr]
  simp [ha]

end OpLemmas

section LedgerInvariant

/-- The quest catalog respects the data-model bounds: `xpReward ≥ 0` and
`attributePointReward ≥ 0` for every quest. -/
def QuestsOK (qs : List (String × Quest)) : Prop :=
  ∀ e ∈ qs, 0 ≤ e.2.xpReward ∧ 0 ≤ e.2.attributePointReward

instance (qs : List (String × Quest)) : Decidable (QuestsOK qs) := by
  unfold QuestsOK
  infer_instance

/-- Whether the progress table holds a completed row for `k`. -/
def isCompletedAt (pr : List (String × ProgressRow)) (k : String) : Bool :=
  match lookupEntry pr k with
  | some r => r.completed
  | none => false

/-- Total `attributePointReward` of the currently completed quests that have
no target attribute: exactly the points the engine has credited to
`availablePoints` (minus level bonuses) and not yet debited. -/
def completedSum (qs : List (String × Quest)) (pr : List (String × ProgressRow)) : Int :=
  (qs.map fun e =>
    if e.2.targetAttribute = none ∧ isCompletedAt pr e.1 = true then
      e.2.attributePointReward
    else 0).sum

/-- Contribution of the quest keyed `k` to `completedSum`. -/
def contrib (qs : List (String × Quest)) (pr : List (String × ProgressRow)) (k : String) : Int :=
  match lookupEntry qs k with
  | some q =>
    if q.targetAttribute = none ∧ isCompletedAt pr k = true then q.attributePointReward else 0
  | none => 0

/-- Inductive invariant for the profile ledger: attributes in range, xp and
cumulative xp nonnegative, and available points dominated from below by the
outstanding no-target completion credits plus the accumulated level
bonuses (`levelForXp xp - 1` level-ups have been credited net of debits). -/
def LedgerInv (s : State) : Prop :=
  AttrsOK s.profile.attributes ∧ 0 ≤ s.profile.xp ∧ 0 ≤ s.profile.cumulativeXp ∧
  completedSum s.quests s.progress + (levelForXp s.profile.xp - 1) ≤ s.profile.availablePoints

theorem isCompletedAt_setEntry_self {pr : List (String × ProgressRow)} {k : String}
    {r0 : ProgressRow} (v : ProgressRow) (h : lookupEntry pr k = some r0) :
    isCompletedAt (setEntry pr k v) k = v.completed := by
  simp [isCompletedAt, lookupEntry_setEntry_self v h]

theorem isCompletedAt_setEntry_ne {pr : List (String × ProgressRow)} {k k2 : String}
    (v : ProgressRow) (h : k2 ≠ k) :
    isCompletedAt (setEntry pr k v) k2 = isCompletedAt pr k2 := by
  simp [isCompletedAt, lookupEntry_setEntry_ne v h]

theorem isCompletedAt_append_self {pr : List (String × ProgressRow)} {k : String}
    (v : ProgressRow) (h : lookupEntry pr k = none) :
    isCompletedAt (pr ++ [(k, v)]) k = v.completed := by
  simp [isCompletedAt, lookupEntry_append_self v h]

theorem isCompletedAt_append_ne {pr : List (String × ProgressRow)} {k k2 : String}
    (v : ProgressRow) (h : k2 ≠ k) :
    isCompletedAt (pr ++ [(k, v)]) k2 = isCompletedAt pr k2 := by
  simp [isCompletedAt, lookupEntry_append_ne pr v h]

theorem isCompletedAt_removeEntry_self (pr : List (String × ProgressRow)) (k : String) :
    isCompletedAt (removeEntry pr k) k = false := by
  simp [isCompletedAt, lookupEntry_removeEntry_self]

theorem lookupEntry_removeEntry_ne {α : Type} (m : List (String × α)) {k k2 : String}
    (h : k2 ≠ k) : lookupEntry (removeEntry m k) k2 = lookupEntry m k2 := by
  induction m with
  | nil => rfl
  | cons e t ih =>
    by_cases he : e.1 = k
    · have he2 : e.1 ≠ k2 := fun hc => h (hc ▸ he)
      simp only [removeEntry, if_pos he, lookupEntry_cons, if_neg he2]
      exact ih
    · by_cases he2 : e.1 = k2
      · simp [removeEntry, he, lookupEntry_cons, he2, h]
      · simp only [removeEntry, if_neg he, lookupEntry_cons, if_neg he2]
        exact ih

theorem isCompletedAt_removeEntry_ne {pr : List (String × ProgressRow)} {k k2 : String}
    (h : k2 ≠ k) : isCompletedAt (removeEntry pr k) k2 = isCompletedAt pr k2 := by
  simp [isCompletedAt, lookupEntry_removeEntry_ne pr h]

theorem completedSum_nonneg {qs : List (String × Quest)} (pr : List (String × ProgressRow))
    (hq : QuestsOK qs) : 0 ≤ completedSum qs pr := by
  induction qs with
  | nil => simp [completedSum]
  | cons e t ih =>
    have he := hq e (List.mem_cons_self e t)
    have ht : QuestsOK t := fun e2 he2 => hq e2 (List.mem_cons_of_mem _ he2)
    have hts := ih ht
    simp only [completedSum, List.map_cons, List.sum_cons]
    simp only [completedSum] at hts
    have hh : (0 : Int) ≤ if e.2.targetAttribute = none ∧ isCompletedAt pr e.1 = true then
        e.2.attributePointReward else 0 := by
      split
      · exact he.2
      · omega
    omega

theorem contrib_nonneg {qs : List (String × Quest)} (pr : List (String × ProgressRow))
    (k : String) (hq : QuestsOK qs) : 0 ≤ contrib qs pr k := by
  rcases h : lookupEntry qs k with _ | q
  · simp [contrib, h]
  · have hb := (hq _ (lookupEntry_mem h)).2
    simp only [contrib, h]
    split
    · exact hb
    · omega

theorem completedSum_congr {qs : List (String × Quest)} {pr pr' : List (String × ProgressRow)}
    (h : ∀ e ∈ qs, isCompletedAt pr' e.1 = isCompletedAt pr e.1) :
    completedSum qs pr' = completedSum qs pr := by
  induction qs with
  | nil => rfl
  | cons e t ih =>
    have he := h e (List.mem_cons_self e t)
    have ht := ih fun e2 he2 => h e2 (List.mem_cons_of_mem _ he2)
    simp only [completedSum, List.map_cons, List.sum_cons]
    simp only [completedSum] at ht
    rw [he]
    omega

theorem completedSum_update {qs : List (String × Quest)} {pr pr' : List (String × ProgressRow)}
    {k : String} (hnd : (qs.map Prod.fst).Nodup)
    (hother : ∀ k2, k2 ≠ k → isCompletedAt pr' k2 = isCompletedAt pr k2) :
    completedSum qs pr' = completedSum qs pr + contrib qs pr' k - contrib qs pr k := by
  induction qs with
  | nil => simp [completedSum, contrib, lookupEntry]
  | cons e t ih =>
    simp only [List.map_cons, List.nodup_cons] at hnd
    obtain ⟨hout, hndt⟩ := hnd
    by_cases he : e.1 = k
    · subst he
      have htail : completedSum t pr' = completedSum t pr := by
        apply completedSum_congr
        intro e2 he2
        apply hother
        intro hcontra
        exact hout (hcontra ▸ List.mem_map_of_mem Prod.fst he2)
      have hcontrib2 : contrib (e :: t) pr' e.1 =
          (if e.2.targetAttribute = none ∧ isCompletedAt pr' e.1 = true then
            e.2.attributePointReward else 0) := by
        simp [contrib, lookupEntry_cons]
      have hcontrib1 : contrib (e :: t) pr e.1 =
          (if e.2.targetAttribute = none ∧ isCompletedAt pr e.1 = true then
            e.2.attributePointReward else 0) := by
        simp [contrib, lookupEntry_cons]
      simp only [completedSum, List.map_cons, List.sum_cons]
      simp only [completedSum] at htail
      rw [hcontrib2, hcontrib1]
      omega
    · have hhead : isCompletedAt pr' e.1 = isCompletedAt pr e.1 := hother e.1 he
      have hcontrib2 : contrib (e :: t) pr' k = contrib t pr' k := by
        simp [contrib, lookupEntry_cons, he]
      have hcontrib1 : contrib (e :: t) pr k = contrib t pr k := by
        simp [contrib, lookupEntry_cons, he]
      have hind := ih hndt
      simp only [completedSum, List.map_cons, List.sum_cons]
      simp only [completedSum] at hind
      rw [hhead, hcontrib2, hcontrib1]
      omega

end LedgerInvariant

section LedgerPreservation

theorem attrsOK_intro {a : Attributes} (h : ∀ i, 0 ≤ a.get i ∧ a.get i ≤ 100) : AttrsOK a :=
  ⟨h .physique, h .mental, h .success, h .social, h .skills⟩

theorem attrsOK_creditProfile {quest : Quest} {p : Profile} (hA : AttrsOK p.attributes) :
    AttrsOK (creditProfile quest p).attributes := by
  apply attrsOK_intro
  intro i
  rw [creditProfile_attr]
  have hi := hA.get i
  split
  · rename_i hcond
    have hra := hcond.2
    omega
  · exact hi

theorem attrsOK_undoDebitProfile {quest : Quest} {p : Profile} (hA : AttrsOK p.attributes) :
    AttrsOK (undoDebitProfile quest p).attributes := by
  apply attrsOK_intro
  intro i
  rw [undoDebitProfile_attr]
  have hi := hA.get i
  split
  · omega
  · exact hi

theorem contrib_formula {qs : List (String × Quest)} {qid : String} {quest : Quest}
    (pr : List (String × ProgressRow)) (hqq : lookupEntry qs qid = some quest) :
    contrib qs pr qid =
      if quest.targetAttribute = none ∧ isCompletedAt pr qid = true then
        quest.attributePointReward
      else 0 := by
  simp [contrib, hqq]

theorem ledger_ap_credit {qs : List (String × Quest)} {pr prNew : List (String × ProgressRow)}
    {p : Profile} {qid : String} {quest : Quest}
    (hqq : lookupEntry qs qid = some quest)
    (hq : QuestsOK qs) (hnd : (qs.map Prod.fst).Nodup)
    (hap : completedSum qs pr + (levelForXp p.xp - 1) ≤ p.availablePoints)
    (hother : ∀ k2, k2 ≠ qid → isCompletedAt prNew k2 = isCompletedAt pr k2) :
    completedSum qs prNew + (levelForXp ((creditProfile quest p).xp) - 1) ≤
      (creditProfile quest p).availablePoints := by
  have hrx : 0 ≤ quest.xpReward := (hq _ (lookupEntry_mem hqq)).1
  have hra : 0 ≤ quest.attributePointReward := (hq _ (lookupEntry_mem hqq)).2
  rw [completedSum_update hnd hother, creditProfile_xp, creditProfile_availablePoints,
    contrib_formula prNew hqq, contrib_formula pr hqq]
  simp only [levelForXp_eq_ediv] at hap ⊢
  by_cases h1 : quest.targetAttribute = none <;>
    by_cases h2 : 0 < quest.attributePointReward <;>
      cases h3 : isCompletedAt prNew qid <;>
        cases h4 : isCompletedAt pr qid <;>
          simp [h1, h2, h3, h4] <;> (try split) <;> omega

theorem ledger_ap_cancel {qs : List (String × Quest)} {pr : List (String × ProgressRow)}
    {p : Profile} {qid : String} {quest : Quest} {r0 : ProgressRow}
    (hqq : lookupEntry qs qid = some quest)
    (hrr : lookupEntry pr qid = some r0) (hc : r0.completed = true)
    (hq : QuestsOK qs) (hnd : (qs.map Prod.fst).Nodup) (hx : 0 ≤ p.xp)
    (hg : ¬(quest.attributePointReward > 0 ∧ quest.targetAttribute.isSome))
    (hap : completedSum qs pr + (levelForXp p.xp - 1) ≤ p.availablePoints) :
    completedSum qs (setEntry pr qid (cancelResetRow r0))
        + (levelForXp ((cancelDebitProfile quest p).xp) - 1) ≤
      (cancelDebitProfile quest p).availablePoints := by
  have hrx : 0 ≤ quest.xpReward := (hq _ (lookupEntry_mem hqq)).1
  have hra : 0 ≤ quest.attributePointReward := (hq _ (lookupEntry_mem hqq)).2
  have hother : ∀ k2, k2 ≠ qid →
      isCompletedAt (setEntry pr qid (cancelResetRow r0)) k2 = isCompletedAt pr k2 :=
    fun k2 hk2 => isCompletedAt_setEntry_ne _ hk2
  have hnew : isCompletedAt (setEntry pr qid (cancelResetRow r0)) qid = false := by
    rw [isCompletedAt_setEntry_self _ hrr]
    rfl
  have hold : isCompletedAt pr qid = true := by
    simp [isCompletedAt, hrr, hc]
  rw [completedSum_update hnd hother, cancelDebitProfile_xp,
    cancelDebitProfile_availablePoints, contrib_formula _ hqq, contrib_formula pr hqq,
    hnew, hold]
  simp only [levelForXp_eq_ediv] at hap ⊢
  by_cases h1 : quest.targetAttribute = none
  · by_cases h2 : 0 < quest.attributePointReward <;>
      simp [h1, h2] <;> (try split) <;> omega
  · have h2 : ¬ 0 < quest.attributePointReward := fun hpos =>
      hg ⟨hpos, Option.isSome_iff_ne_none.mpr h1⟩
    simp [h1, h2] <;> (try split) <;> omega

theorem ledger_ap_undo {qs : List (String × Quest)} {pr : List (String × ProgressRow)}
    {p : Profile} {qid : String} {quest : Quest} {r0 : ProgressRow}
    (hqq : lookupEntry qs qid = some quest)
    (hrr : lookupEntry pr qid = some r0) (hc : r0.completed = true)
    (hq : QuestsOK qs) (hnd : (qs.map Prod.fst).Nodup)
    (hap : completedSum qs pr + (levelForXp p.xp - 1) ≤ p.availablePoints) :
    completedSum qs (setEntry pr qid (undoResetRow r0))
        + (levelForXp ((undoDebitProfile quest p).xp) - 1) ≤
      (undoDebitProfile quest p).availablePoints := by
  have hra : 0 ≤ quest.attributePointReward := (hq _ (lookupEntry_mem hqq)).2
  have hother : ∀ k2, k2 ≠ qid →
      isCompletedAt (setEntry pr qid (undoResetRow r0)) k2 = isCompletedAt pr k2 :=
    fun k2 hk2 => isCompletedAt_setEntry_ne _ hk2
  have hnew : isCompletedAt (setEntry pr qid (undoResetRow r0)) qid = false := by
    rw [isCompletedAt_setEntry_self _ hrr]
    rfl
  have hold : isCompletedAt pr qid = true := by
    simp [isCompletedAt, hrr, hc]
  rw [completedSum_update hnd hother, undoDebitProfile_xp,
    undoDebitProfile_availablePoints, contrib_formula _ hqq, contrib_formula pr hqq,
    hnew, hold]
  simp only [levelForXp_eq_ediv] at hap ⊢
  by_cases h1 : quest.targetAttribute = none <;>
    by_cases h2 : 0 < quest.attributePointReward <;>
      simp [h1, h2] <;> omega

/-- One engine call preserves the quest catalog and the ledger invariant.
The four `completeQuest` paths (insert, flip, idempotent no-op, and the
degenerate repeated-timestamp path where the stored `completedAt` equals
the current clock) are each covered; the stale-stamp path only ever
over-credits, which keeps the lower bound intact. -/
theorem applyEngineOp_preserves (s : State) (op : EngineOp)
    (hq : QuestsOK s.quests) (hnd : (s.quests.map Prod.fst).Nodup) (hinv : LedgerInv s) :
    (applyEngineOp s op).quests = s.quests ∧ LedgerInv (applyEngineOp s op) := by
  obtain ⟨hA, hx, hcum, hap⟩ := hinv
  cases op with
  | complete qid =>
    rcases hqq : lookupEntry s.quests qid with _ | quest
    · simp only [applyEngineOp, completeQuest_notFound hqq]
      exact ⟨by trivial, hA, hx, hcum, hap⟩
    · have hrx : 0 ≤ quest.xpReward := (hq _ (lookupEntry_mem hqq)).1
      rcases hrr : lookupEntry s.progress qid with _ | r0
      · simp only [applyEngineOp, completeQuest_new hqq hrr]
        refine ⟨by trivial, attrsOK_creditProfile hA, ?_, ?_, ?_⟩
        · rw [creditProfile_xp]
          omega
        · rw [creditProfile_cumulativeXp]
          omega
        · exact ledger_ap_credit hqq hq hnd hap
            fun k2 hk2 => isCompletedAt_append_ne _ hk2
      · cases hc : r0.completed with
        | false =>
          simp only [applyEngineOp, completeQuest_flip hqq hrr hc]
          refine ⟨by trivial, attrsOK_creditProfile hA, ?_, ?_, ?_⟩
          · rw [creditProfile_xp]
            omega
          · rw [creditProfile_cumulativeXp]
            omega
          · exact ledger_ap_credit hqq hq hnd hap
              fun k2 hk2 => isCompletedAt_setEntry_ne _ hk2
        | true =>
          by_cases hts : r0.completedAt = some s.clock
          · simp only [applyEngineOp, completeQuest_staleStamp hqq hrr hc hts]
            refine ⟨by trivial, attrsOK_creditProfile hA, ?_, ?_, ?_⟩
            · rw [creditProfile_xp]
              omega
            · rw [creditProfile_cumulativeXp]
              omega
            · exact ledger_ap_credit hqq hq hnd hap fun k2 _ => rfl
          · simp only [applyEngineOp, completeQuest_noop hqq hrr hc hts]
            exact ⟨by trivial, hA, hx, hcum, hap⟩
  | cancel qid =>
    rcases hqq : lookupEntry s.quests qid with _ | quest
    · simp only [applyEngineOp, cancelQuestCompletion_notFound hqq]
      exact ⟨by trivial, hA, hx, hcum, hap⟩
    · have hrx : 0 ≤ quest.xpReward := (hq _ (lookupEntry_mem hqq)).1
      rcases hrr : lookupEntry s.progress qid with _ | r0
      · simp only [applyEngineOp, cancelQuestCompletion_noRow hqq hrr]
        exact ⟨by trivial, hA, hx, hcum, hap⟩
      · cases hc : r0.completed with
        | false =>
          simp only [applyEngineOp, cancelQuestCompletion_notCompleted hqq hrr hc]
          exact ⟨by trivial, hA, hx, hcum, hap⟩
        | true =>
          by_cases hg : quest.attributePointReward > 0 ∧ quest.targetAttribute.isSome
          · simp only [applyEngineOp, cancelQuestCompletion_sqlError hqq hrr hc hg]
            exact ⟨by trivial, hA, hx, hcum, hap⟩
          · simp only [applyEngineOp, cancelQuestCompletion_ok hqq hrr hc hg]
            refine ⟨by trivial, ?_, ?_, ?_, ?_⟩
            · rw [cancelDebitProfile_attributes]
              exact hA
            · rw [cancelDebitProfile_xp]
              omega
            · rw [cancelDebitProfile_cumulativeXp]
              omega
            · exact ledger_ap_cancel hqq hrr hc hq hnd hx hg hap
  | undo qid =>
    rcases hqq : lookupEntry s.quests qid with _ | quest
    · simp only [applyEngineOp, undoQuestCompletion_notFound hqq]
      exact ⟨by trivial, hA, hx, hcum, hap⟩
    · rcases hrr : lookupEntry s.progress qid with _ | r0
      · simp only [applyEngineOp, undoQuestCompletion_noRow hqq hrr]
        exact ⟨by trivial, hA, hx, hcum, hap⟩
      · cases hc : r0.completed with
        | false =>
          simp only [applyEngineOp, undoQuestCompletion_notCompleted hqq hrr hc]
          exact ⟨by trivial, hA, hx, hcum, hap⟩
        | true =>
          simp only [applyEngineOp, undoQuestCompletion_ok hqq hrr hc]
          refine ⟨by trivial, attrsOK_undoDebitProfile hA, ?_, ?_, ?_⟩
          · rw [undoDebitProfile_xp]
            omega
          · rw [undoDebitProfile_cumulativeXp]
            omega
          · exact ledger_ap_undo hqq hrr hc hq hnd hap

/-- Folding any engine-call sequence preserves catalog bounds, key
uniqueness and the ledger invariant. -/
theorem foldl_applyEngineOp_preserves (ops : List EngineOp) (s : State)
    (hq : QuestsOK s.quests) (hnd : (s.quests.map Prod.fst).Nodup) (hinv : LedgerInv s) :
    QuestsOK (ops.foldl applyEngineOp s).quests ∧
    ((ops.foldl applyEngineOp s).quests.map Prod.fst).Nodup ∧
    LedgerInv (ops.foldl applyEngineOp s) := by
  induction ops generalizing s with
  | nil => exact ⟨hq, hnd, hinv⟩
  | cons op rest ih =>
    obtain ⟨hqs, hinv2⟩ := applyEngineOp_preserves s op hq hnd hinv
    exact ih (applyEngineOp s op) (hqs ▸ hq) (hqs ▸ hnd) hinv2

end LedgerPreservation

theorem completedSum_nil_progress (qs : List (String × Quest)) : completedSum qs [] = 0 := by
  induction qs with
  | nil => rfl
  | cons e t ih =>
    simp only [completedSum, List.map_cons, List.sum_cons] at ih ⊢
    simp [isCompletedAt, lookupEntry, ih]

/-- C2: under every finite sequence of Complete, Cancel and Undo calls
starting from the default profile (fresh progress table, catalog with
nonnegative rewards and unique ids), the five attribute values stay in
[0, 100] and availablePoints, xp and cumulativeXp never become negative. -/
theorem engine_sequences_preserve_ledger_bounds (ops : List EngineOp) (s0 : State)
    (hq : QuestsOK s0.quests) (hnd : (s0.quests.map Prod.fst).Nodup)
    (hp : s0.profile = defaultProfile) (hpr : s0.progress = []) :
    AttrsOK (ops.foldl applyEngineOp s0).profile.attributes ∧
    0 ≤ (ops.foldl applyEngineOp s0).profile.availablePoints ∧
    0 ≤ (ops.foldl applyEngineOp s0).profile.xp ∧
    0 ≤ (ops.foldl applyEngineOp s0).profile.cumulativeXp := by
  have hinv0 : LedgerInv s0 := by
    refine ⟨?_, ?_, ?_, ?_⟩ <;> rw [hp]
    · decide
    · decide
    · decide
    · rw [hpr, completedSum_nil_progress]
      decide
  obtain ⟨hqF, hndF, hAF, hxF, hcF, hapF⟩ :=
    foldl_applyEngineOp_preserves ops s0 hq hnd hinv0
  have hsum := completedSum_nonneg ((ops.foldl applyEngineOp s0).progress) hqF
  have hlvl : 1 ≤ levelForXp (ops.foldl applyEngineOp s0).profile.xp := by
    rw [levelForXp_eq_ediv]
    omega
  exact ⟨hAF, by omega, hxF, hcF⟩

/-- Witness for C2 at a concrete catalog and operation sequence. -/
theorem engine_sequences_preserve_ledger_bounds_witness :
    AttrsOK ([EngineOp.complete "q", EngineOp.undo "q", EngineOp.cancel "q"].foldl
        applyEngineOp
        { profile := defaultProfile, groups := [],
          quests := [("q", ⟨none, 850, 3, none⟩)], progress := [],
          clock := 0 }).profile.attributes ∧
    0 ≤ ([EngineOp.complete "q", EngineOp.undo "q", EngineOp.cancel "q"].foldl
        applyEngineOp
        { profile := defaultProfile, groups := [],
          quests := [("q", ⟨none, 850, 3, none⟩)], progress := [],
          clock := 0 }).profile.availablePoints ∧
    0 ≤ ([EngineOp.complete "q", EngineOp.undo "q", EngineOp.cancel "q"].foldl
        applyEngineOp
        { profile := defaultProfile, groups := [],
          quests := [("q", ⟨none, 850, 3, none⟩)], progress := [],
          clock := 0 }).profile.xp ∧
    0 ≤ ([EngineOp.complete "q", EngineOp.undo "q", EngineOp.cancel "q"].foldl
        applyEngineOp
        { profile := defaultProfile, groups := [],
          quests := [("q", ⟨none, 850, 3, none⟩)], progress := [],
          clock := 0 }).profile.cumulativeXp :=
  engine_sequences_preserve_ledger_bounds _ _ (by decide) (by decide) rfl rfl

section RowInvariant

/-- Implicit row invariant: a not-completed progress row always has a zero
progress counter. -/
def RowInv (s : State) : Prop :=
  ∀ e ∈ s.progress, e.2.completed = false → e.2.progress = 0

instance (s : State) : Decidable (RowInv s) := by
  unfold RowInv
  infer_instance

theorem rowInv_of_table {s : State} {pr : List (String × ProgressRow)}
    (h : ∀ e ∈ pr, e.2.completed = false → e.2.progress = 0)
    (hs : s.progress = pr) : RowInv s := by
  rw [RowInv, hs]
  exact h

theorem applyFullOp_rowInv (s : State) (op : FullOp) (h : RowInv s) :
    RowInv (applyFullOp s op) := by
  cases op with
  | complete qid =>
    rcases hqq : lookupEntry s.quests qid with _ | quest
    · simpa only [applyFullOp, completeQuest_notFound hqq] using h
    · rcases hrr : lookupEntry s.progress qid with _ | r0
      · simp only [applyFullOp, completeQuest_new hqq hrr]
        intro e he hc
        rcases List.mem_append.mp he with he2 | he2
        · exact h e he2 hc
        · simp only [List.mem_singleton] at he2
          subst he2
          simp [freshRow] at hc
      · cases hc0 : r0.completed with
        | false =>
          simp only [applyFullOp, completeQuest_flip hqq hrr hc0]
          intro e he hc
          rcases mem_setEntry he with he2 | he2
          · exact h e he2 hc
          · subst he2
            simp [flipRow] at hc
        | true =>
          by_cases hts : r0.completedAt = some s.clock
          · simp only [applyFullOp, completeQuest_staleStamp hqq hrr hc0 hts]
            exact h
          · simp only [applyFullOp, completeQuest_noop hqq hrr hc0 hts]
            exact h
  | cancel qid =>
    rcases hqq : lookupEntry s.quests qid with _ | quest
    · simpa only [applyFullOp, cancelQuestCompletion_notFound hqq] using h
    · rcases hrr : lookupEntry s.progress qid with _ | r0
      · simpa only [applyFullOp, cancelQuestCompletion_noRow hqq hrr] using h
      · cases hc0 : r0.completed with
        | false =>
          simpa only [applyFullOp, cancelQuestCompletion_notCompleted hqq hrr hc0] using h
        | true =>
          by_cases hg : quest.attributePointReward > 0 ∧ quest.targetAttribute.isSome
          · simpa only [applyFullOp, cancelQuestCompletion_sqlError hqq hrr hc0 hg] using h
          · simp only [applyFullOp, cancelQuestCompletion_ok hqq hrr hc0 hg]
            intro e he hc
            rcases mem_setEntry he with he2 | he2
            · exact h e he2 hc
            · subst he2
              rfl
  | archive qid reason =>
    rcases hrr : lookupEntry s.progress qid with _ | r0
    · simpa only [applyFullOp, archiveQuest_noRow hrr] using h
    · simp only [applyFullOp, archiveQuest_ok hrr]
      intro e he hc
      rcases mem_setEntry he with he2 | he2
      · exact h e he2 hc
      · subst he2
        exact h (qid, r0) (lookupEntry_mem hrr) hc
  | restore qid =>
    rcases hrr : lookupEntry s.progress qid with _ | r0
    · simpa only [applyFullOp, restoreQuestFromArchive_noRow hrr] using h
    · simp only [applyFullOp, restoreQuestFromArchive_ok hrr]
      intro e he hc
      rcases mem_setEntry he with he2 | he2
      · exact h e he2 hc
      · subst he2
        exact h (qid, r0) (lookupEntry_mem hrr) hc
  | deleteArchived qid =>
    rcases hrr : lookupEntry s.progress qid with _ | r0
    · simpa only [applyFullOp, deleteArchivedQuest_noRow hrr] using h
    · cases ha : r0.isArchived with
      | false =>
        simpa only [applyFullOp, deleteArchivedQuest_notArchived hrr ha] using h
      | true =>
        simp only [applyFullOp, deleteArchivedQuest_ok hrr ha]
        intro e he hc
        exact h e (mem_removeEntry he) hc
  | undo qid =>
    rcases hqq : lookupEntry s.quests qid with _ | quest
    · simpa only [applyFullOp, undoQuestCompletion_notFound hqq] using h
    · rcases hrr : lookupEntry s.progress qid with _ | r0
      · simpa only [applyFullOp, undoQuestCompletion_noRow hqq hrr] using h
      · cases hc0 : r0.completed with
        | false =>
          simpa only [applyFullOp, undoQuestCompletion_notCompleted hqq hrr hc0] using h
        | true =>
          simp only [applyFullOp, undoQuestCompletion_ok hqq hrr hc0]
          intro e he hc
          rcases mem_setEntry he with he2 | he2
          · exact h e he2 hc
          · subst he2
            rfl

/-- C10: in every progress state reachable from an empty progress table by
the six engine operations, `completed=false` implies `progress=0`, and
consequently whenever Complete flips a quest from not-completed to
completed the returned row has progress exactly 1. -/
theorem progress_row_invariant :
    (∀ (ops : List FullOp) (s0 : State), s0.progress = [] →
      RowInv (ops.foldl applyFullOp s0)) ∧
    (∀ (s : State) (qid : String) (r1 : ProgressRow) (s1 : State), RowInv s →
      (lookupEntry s.progress qid = none ∨
        ∃ r0, lookupEntry s.progress qid = some r0 ∧ r0.completed = false) →
      completeQuest s qid = .ok (r1, s1) → r1.progress = 1) := by
  constructor
  · intro ops s0 h0
    have hbase : RowInv s0 := by
      rw [RowInv, h0]
      intro e he
      simp at he
    clear h0
    induction ops generalizing s0 with
    | nil => exact hbase
    | cons op rest ih => exact ih _ (applyFullOp_rowInv s0 op hbase)
  · intro s qid r1 s1 hinv hflip hok
    rcases hqq : lookupEntry s.quests qid with _ | quest
    · rw [completeQuest_notFound hqq] at hok
      exact absurd hok (by simp)
    · rcases hflip with hnone | ⟨r0, hr0, hc0⟩
      · rw [completeQuest_new hqq hnone] at hok
        simp only [Except.ok.injEq, Prod.mk.injEq] at hok
        rw [← hok.1]
        rfl
      · rw [completeQuest_flip hqq hr0 hc0] at hok
        simp only [Except.ok.injEq, Prod.mk.injEq] at hok
        rw [← hok.1]
        have hz : r0.progress = 0 := hinv (qid, r0) (lookupEntry_mem hr0) hc0
        simp [flipRow, hz]

/-- Witness for C10: a concrete operation sequence and a concrete flip. -/
theorem progress_row_invariant_witness :
    RowInv ([FullOp.complete "q", FullOp.archive "q" "done", FullOp.undo "q"].foldl
      applyFullOp
      { profile := defaultProfile, groups := [],
        quests := [("q", ⟨none, 100, 1, none⟩)], progress := [], clock := 0 }) ∧
    (completeQuest
        { profile := defaultProfile, groups := [],
          quests := [("q", ⟨none, 100, 1, none⟩)],
          progress := [("q", ⟨0, false, none, false, none, none, true⟩)],
          clock := 5 } "q").toOption.map (fun r => r.1.progress) = some 1 := by
  constructor
  · exact progress_row_invariant.1 _ _ rfl
  · have h1 : completeQuest
        { profile := defaultProfile, groups := [],
          quests := [("q", ⟨none, 100, 1, none⟩)],
          progress := [("q", ⟨0, false, none, false, none, none, true⟩)],
          clock := 5 } "q" = .ok
        (flipRow ⟨0, false, none, false, none, none, true⟩ 5,
          { profile := creditProfile ⟨none, 100, 1, none⟩ defaultProfile, groups := [],
            quests := [("q", ⟨none, 100, 1, none⟩)],
            progress := [("q", flipRow ⟨0, false, none, false, none, none, true⟩ 5)],
            clock := 6 }) := by rfl
    have h2 := progress_row_invariant.2 _ "q" _ _ (by decide)
      (Or.inr ⟨⟨0, false, none, false, none, none, true⟩, by rfl, by rfl⟩) h1
    rw [h1]
    show some ((flipRow ⟨0, false, none, false, none, none, true⟩ 5).progress) = some 1
    rw [h2]

end RowInvariant

section Idempotence

/-- A stored timestamp is strictly older than the clock value the next call
will stamp with (real `new Date()` timestamps are strictly increasing). -/
def stampOK (c : Nat) : Option Nat → Prop
  | none => True
  | some t => t < c

instance (c : Nat) (o : Option Nat) : Decidable (stampOK c o) := by
  cases o with
  | none => exact isTrue trivial
  | some t => exact inferInstanceAs (Decidable (t < c))

/-- Every stored completion timestamp predates the current clock. -/
def TimeOK (s : State) : Prop :=
  ∀ e ∈ s.progress, stampOK s.clock e.2.completedAt

instance (s : State) : Decidable (TimeOK s) := by
  unfold TimeOK
  infer_instance

theorem stampOK_ne {c : Nat} {o : Option Nat} (h : stampOK c o) : o ≠ some c := by
  cases o with
  | none => simp
  | some t =>
    simp only [Option.some.injEq, ne_eq]
    have ht : t < c := h
    omega

/-- C1: completing an already-completed quest is a no-op on the progress row
and applies no profile credit, and therefore completing a quest twice in a
row leaves the profile and the progress table exactly as one Complete call
does (only the clock advances). -/
theorem completeQuest_idempotent (s : State) (questId : String) (hT : TimeOK s) :
    (∀ r0, lookupEntry s.progress questId = some r0 → r0.completed = true →
      ∀ rr s1, completeQuest s questId = .ok (rr, s1) →
        s1.progress = s.progress ∧ s1.profile = s.profile ∧ rr = r0) ∧
    (∀ r1 s1, completeQuest s questId = .ok (r1, s1) →
      ∃ r2 s2, completeQuest s1 questId = .ok (r2, s2) ∧
        s2.profile = s1.profile ∧ s2.progress = s1.progress) := by
  constructor
  · intro r0 hr0 hc0 rr s1 hok
    rcases hqq : lookupEntry s.quests questId with _ | quest
    · rw [completeQuest_notFound hqq] at hok
      exact absurd hok (by simp)
    · have hts : r0.completedAt ≠ some s.clock :=
        stampOK_ne (hT (questId, r0) (lookupEntry_mem hr0))
      rw [completeQuest_noop hqq hr0 hc0 hts] at hok
      simp only [Except.ok.injEq, Prod.mk.injEq] at hok
      obtain ⟨h1, h2⟩ := hok
      subst h1
      subst h2
      exact ⟨rfl, rfl, rfl⟩
  · intro r1 s1 hok
    rcases hqq : lookupEntry s.quests questId with _ | quest
    · rw [completeQuest_notFound hqq] at hok
      exact absurd hok (by simp)
    · rcases hrr : lookupEntry s.progress questId with _ | r0
      · rw [completeQuest_new hqq hrr] at hok
        simp only [Except.ok.injEq, Prod.mk.injEq] at hok
        obtain ⟨h1, h2⟩ := hok
        subst h1
        subst h2
        refine ⟨freshRow s.clock, _, completeQuest_noop hqq
          (lookupEntry_append_self _ hrr) rfl ?_, rfl, rfl⟩
        simp [freshRow]
      · cases hc0 : r0.completed with
        | false =>
          rw [completeQuest_flip hqq hrr hc0] at hok
          simp only [Except.ok.injEq, Prod.mk.injEq] at hok
          obtain ⟨h1, h2⟩ := hok
          subst h1
          subst h2
          refine ⟨flipRow r0 s.clock, _, completeQuest_noop hqq
            (lookupEntry_setEntry_self _ hrr) rfl ?_, rfl, rfl⟩
          simp [flipRow]
        | true =>
          have hts : r0.completedAt ≠ some s.clock :=
            stampOK_ne (hT (questId, r0) (lookupEntry_mem hrr))
          rw [completeQuest_noop hqq hrr hc0 hts] at hok
          simp only [Except.ok.injEq, Prod.mk.injEq] at hok
          obtain ⟨h1, h2⟩ := hok
          subst h1
          subst h2
          have hts2 : r0.completedAt ≠ some (s.clock + 1) := by
            have := hT (questId, r0) (lookupEntry_mem hrr)
            cases hca : r0.completedAt with
            | none => simp
            | some t =>
              rw [hca] at this
              have ht : t < s.clock := this
              simp only [Option.some.injEq, ne_eq]
              omega
          exact ⟨r0, _, completeQuest_noop hqq hrr hc0 hts2, rfl, rfl⟩

/-- Witness for C1 at a concrete state holding one completed row. -/
theorem completeQuest_idempotent_witness :
    ({ profile := defaultProfile, groups := [],
       quests := [("q", ⟨none, 100, 1, some .mental⟩)],
       progress := [("q", ⟨1, true, some 0, false, none, none, true⟩)],
       clock := 1 } : State).clock = 1 ∧
    (∀ rr s1, completeQuest
        { profile := defaultProfile, groups := [],
          quests := [("q", ⟨none, 100, 1, some .mental⟩)],
          progress := [("q", ⟨1, true, some 0, false, none, none, true⟩)],
          clock := 1 } "q" = .ok (rr, s1) →
      s1.progress = [("q", ⟨1, true, some 0, false, none, none, true⟩)] ∧
      s1.profile = defaultProfile ∧ rr = ⟨1, true, some 0, false, none, none, true⟩) := by
  refine ⟨rfl, fun rr s1 hok => ?_⟩
  exact (completeQuest_idempotent _ "q" (by decide)).1
    ⟨1, true, some 0, false, none, none, true⟩ (by rfl) (by rfl) rr s1 hok

end Idempotence

section CompleteCancelRoundtrip

/-- C3 (code behavior): Cancel of a completed quest that targets an
attribute with a positive reward always fails — the jsonb_set set-clause
cannot execute, the transaction rolls back and nothing is restored — so
Complete followed immediately by Cancel does not restore the profile for
targeted quests; the call is an error-level no-op on the whole store. The
concrete part completes a targeted quest from the Inactive state (mental
10 -> 15, xp 750 -> 850) and shows the following Cancel returning the SQL
error with the store unchanged, where the claim promises mental back to 10
and xp back to 750. -/
theorem complete_then_cancel_targeted_fails :
    (∀ (s : State) (questId : String) (quest : Quest) (r0 : ProgressRow) (a : AttrName),
      lookupEntry s.quests questId = some quest →
      lookupEntry s.progress questId = some r0 → r0.completed = true →
      0 < quest.attributePointReward → quest.targetAttribute = some a →
      cancelQuestCompletion s questId = .error .sqlError ∧
      applyEngineOp s (.cancel questId) = s) ∧
    (((completeQuest
        { profile := ⟨1, 750, 0, 0, ⟨10, 10, 10, 10, 10⟩⟩, groups := [],
          quests := [("q", ⟨none, 100, 5, some .mental⟩)], progress := [],
          clock := 0 } "q").toOption.map fun r =>
      (r.2.profile.attributes.mental, r.2.profile.xp)) = some (15, 850) ∧
    ((completeQuest
        { profile := ⟨1, 750, 0, 0, ⟨10, 10, 10, 10, 10⟩⟩, groups := [],
          quests := [("q", ⟨none, 100, 5, some .mental⟩)], progress := [],
          clock := 0 } "q").toOption.map fun r =>
      cancelQuestCompletion r.2 "q") = some (.error .sqlError) ∧
    ((completeQuest
        { profile := ⟨1, 750, 0, 0, ⟨10, 10, 10, 10, 10⟩⟩, groups := [],
          quests := [("q", ⟨none, 100, 5, some .mental⟩)], progress := [],
          clock := 0 } "q").toOption.map fun r =>
      applyEngineOp r.2 (.cancel "q")) =
      (completeQuest
        { profile := ⟨1, 750, 0, 0, ⟨10, 10, 10, 10, 10⟩⟩, groups := [],
          quests := [("q", ⟨none, 100, 5, some .mental⟩)], progress := [],
          clock := 0 } "q").toOption.map fun r => r.2) := by
  refine ⟨?_, by decide, by rfl, by rfl⟩
  intro s questId quest r0 a hq hr0 hc0 hra hta
  have hg : quest.attributePointReward > 0 ∧ quest.targetAttribute.isSome :=
    ⟨hra, by rw [hta]; rfl⟩
  have herr := cancelQuestCompletion_sqlError hq hr0 hc0 hg
  exact ⟨herr, by simp [applyEngineOp, herr]⟩

/-- Witness for C3's universally quantified part at the concrete state the
concrete part produces (completed targeted quest, one progress row). -/
theorem complete_then_cancel_targeted_fails_witness :
    cancelQuestCompletion
      { profile := ⟨2, 850, 100, 1, ⟨10, 15, 10, 10, 10⟩⟩, groups := [],
        quests := [("q", ⟨none, 100, 5, some .mental⟩)],
        progress := [("q", freshRow 0)], clock := 1 } "q" = .error .sqlError ∧
    applyEngineOp
      { profile := ⟨2, 850, 100, 1, ⟨10, 15, 10, 10, 10⟩⟩, groups := [],
        quests := [("q", ⟨none, 100, 5, some .mental⟩)],
        progress := [("q", freshRow 0)], clock := 1 } (.cancel "q") =
      { profile := ⟨2, 850, 100, 1, ⟨10, 15, 10, 10, 10⟩⟩, groups := [],
        quests := [("q", ⟨none, 100, 5, some .mental⟩)],
        progress := [("q", freshRow 0)], clock := 1 } :=
  complete_then_cancel_targeted_fails.1 _ "q" ⟨none, 100, 5, some .mental⟩
    (freshRow 0) .mental (by rfl) (by rfl) (by rfl) (by decide) (by rfl)

end CompleteCancelRoundtrip

section CompleteUndoRoundtrip

theorem undo_credit_profile_roundtrip (quest : Quest) (p : Profile)
    (hcum : 0 ≤ p.cumulativeXp) (hap : 0 ≤ p.availablePoints)
    (hattrs : ∀ i, 0 ≤ p.attributes.get i) :
    (undoDebitProfile quest (creditProfile quest p)).cumulativeXp = p.cumulativeXp ∧
    (undoDebitProfile quest (creditProfile quest p)).xp = (creditProfile quest p).xp ∧
    (undoDebitProfile quest (creditProfile quest p)).level = (creditProfile quest p).level ∧
    (quest.targetAttribute = none →
      levelForXp (p.xp + quest.xpReward) = levelForXp p.xp →
      (undoDebitProfile quest (creditProfile quest p)).availablePoints =
        p.availablePoints) ∧
    (∀ a, quest.targetAttribute = some a →
      p.attributes.get a + quest.attributePointReward ≤ 100 →
      (undoDebitProfile quest (creditProfile quest p)).attributes.get a =
        p.attributes.get a) := by
  refine ⟨?_, undoDebitProfile_xp _ _, undoDebitProfile_level _ _, ?_, ?_⟩
  · rw [undoDebitProfile_cumulativeXp, creditProfile_cumulativeXp]
    omega
  · intro ht hli
    rw [undoDebitProfile_availablePoints, creditProfile_availablePoints, ht, hli]
    by_cases h2 : 0 < quest.attributePointReward <;> simp [h2] <;> omega
  · intro a hta hcl
    have hva := hattrs a
    rw [undoDebitProfile_attr, creditProfile_attr, hta]
    by_cases h2 : 0 < quest.attributePointReward <;> simp [h2] <;> omega

/-- C4 (amended): for a quest in the Inactive state, Complete followed by
Undo restores cumulativeXp exactly and leaves the current xp and level as
Complete set them; the targeted attribute is restored exactly provided the
credit did not clamp at 100, and availablePoints is restored exactly
provided the Complete caused no level increase (Undo never debits the
level-up bonus points). -/
theorem complete_then_undo_roundtrip (s : State) (questId : String) (quest : Quest)
    (hq : lookupEntry s.quests questId = some quest)
    (hcum : 0 ≤ s.profile.cumulativeXp) (hap : 0 ≤ s.profile.availablePoints)
    (hattrs : ∀ i, 0 ≤ s.profile.attributes.get i)
    (hInactive : lookupEntry s.progress questId = none ∨
      ∃ r0, lookupEntry s.progress questId = some r0 ∧ r0.completed = false) :
    ∃ r1 s1 r2 s2, completeQuest s questId = .ok (r1, s1) ∧
      undoQuestCompletion s1 questId = .ok (r2, s2) ∧
      s2.profile.cumulativeXp = s.profile.cumulativeXp ∧
      s2.profile.xp = s1.profile.xp ∧
      s2.profile.level = s1.profile.level ∧
      (quest.targetAttribute = none →
        levelForXp (s.profile.xp + quest.xpReward) = levelForXp s.profile.xp →
        s2.profile.availablePoints = s.profile.availablePoints) ∧
      (∀ a, quest.targetAttribute = some a →
        s.profile.attributes.get a + quest.attributePointReward ≤ 100 →
        s2.profile.attributes.get a = s.profile.attributes.get a) := by
  have hrt := undo_credit_profile_roundtrip quest s.profile hcum hap hattrs
  rcases hInactive with hnone | ⟨r0, hr0, hc0⟩
  · exact ⟨freshRow s.clock, _, _, _, completeQuest_new hq hnone,
      undoQuestCompletion_ok hq (lookupEntry_append_self _ hnone) rfl,
      hrt.1, hrt.2.1, hrt.2.2.1, hrt.2.2.2.1, hrt.2.2.2.2⟩
  · exact ⟨flipRow r0 s.clock, _, _, _, completeQuest_flip hq hr0 hc0,
      undoQuestCompletion_ok hq (lookupEntry_setEntry_self _ hr0) rfl,
      hrt.1, hrt.2.1, hrt.2.2.1, hrt.2.2.2.1, hrt.2.2.2.2⟩

/-- Witness for C4 at a quest whose completion causes no level-up. -/
theorem complete_then_undo_roundtrip_witness :
    ∃ r1 s1 r2 s2, completeQuest
        { profile := defaultProfile, groups := [],
          quests := [("q", ⟨none, 100, 3, none⟩)], progress := [],
          clock := 0 } "q" = .ok (r1, s1) ∧
      undoQuestCompletion s1 "q" = .ok (r2, s2) ∧
      s2.profile.cumulativeXp = 0 ∧
      s2.profile.xp = s1.profile.xp ∧
      s2.profile.level = s1.profile.level ∧
      ((⟨none, 100, 3, none⟩ : Quest).targetAttribute = none →
        levelForXp (0 + 100) = levelForXp 0 →
        s2.profile.availablePoints = 0) ∧
      (∀ a, (⟨none, 100, 3, none⟩ : Quest).targetAttribute = some a →
        (defaultProfile.attributes.get a + 3 ≤ 100) →
        s2.profile.attributes.get a = defaultProfile.attributes.get a) :=
  complete_then_undo_roundtrip _ "q" _ (by rfl) (by decide) (by decide)
    (by intro i; cases i <;> decide) (Or.inl (by rfl))

/-- Counterexample to C4 as stated: completing a quest worth 800 XP and 3
generic points from the default profile credits 3 + 1 level-bonus points;
Undo debits only the 3, leaving availablePoints at 1, not the pre-Complete
value 0. -/
theorem complete_then_undo_counterexample :
    (((completeQuest
        { profile := defaultProfile, groups := [],
          quests := [("q", ⟨none, 800, 3, none⟩)], progress := [],
          clock := 0 } "q").toOption.bind
      (fun r => (undoQuestCompletion r.2 "q").toOption)).map
        (fun r => r.2.profile.availablePoints) = some 1) ∧
    ((1 : Int) ≠ 0) ∧
    defaultProfile.availablePoints = 0 := by
  refine ⟨by decide, by decide, by decide⟩

end CompleteUndoRoundtrip

section FrameAndErrors

/-- C5: Cancel never modifies cumulativeXp, and Undo never modifies the
current xp or level. -/
theorem cancel_undo_frame_conditions :
    (∀ (s : State) (questId : String) (r : ProgressRow) (s2 : State),
      cancelQuestCompletion s questId = .ok (r, s2) →
      s2.profile.cumulativeXp = s.profile.cumulativeXp) ∧
    (∀ (s : State) (questId : String) (r : ProgressRow) (s2 : State),
      undoQuestCompletion s questId = .ok (r, s2) →
      s2.profile.xp = s.profile.xp ∧ s2.profile.level = s.profile.level) := by
  constructor
  · intro s questId r s2 hok
    rcases hqq : lookupEntry s.quests questId with _ | quest
    · rw [cancelQuestCompletion_notFound hqq] at hok
      exact absurd hok (by simp)
    · rcases hrr : lookupEntry s.progress questId with _ | r0
      · rw [cancelQuestCompletion_noRow hqq hrr] at hok
        exact absurd hok (by simp)
      · cases hc0 : r0.completed with
        | false =>
          rw [cancelQuestCompletion_notCompleted hqq hrr hc0] at hok
          exact absurd hok (by simp)
        | true =>
          by_cases hg : quest.attributePointReward > 0 ∧ quest.targetAttribute.isSome
          · rw [cancelQuestCompletion_sqlError hqq hrr hc0 hg] at hok
            exact absurd hok (by simp)
          · rw [cancelQuestCompletion_ok hqq hrr hc0 hg] at hok
            simp only [Except.ok.injEq, Prod.mk.injEq] at hok
            rw [← hok.2]
            exact cancelDebitProfile_cumulativeXp quest s.profile
  · intro s questId r s2 hok
    rcases hqq : lookupEntry s.quests questId with _ | quest
    · rw [undoQuestCompletion_notFound hqq] at hok
      exact absurd hok (by simp)
    · rcases hrr : lookupEntry s.progress questId with _ | r0
      · rw [undoQuestCompletion_noRow hqq hrr] at hok
        exact absurd hok (by simp)
      · cases hc0 : r0.completed with
        | false =>
          rw [undoQuestCompletion_notCompleted hqq hrr hc0] at hok
          exact absurd hok (by simp)
        | true =>
          rw [undoQuestCompletion_ok hqq hrr hc0] at hok
          simp only [Except.ok.injEq, Prod.mk.injEq] at hok
          rw [← hok.2]
          exact ⟨undoDebitProfile_xp quest s.profile, undoDebitProfile_level quest s.profile⟩

/-- Witness for C5 at concrete completed rows: a no-target quest for the
Cancel conjunct (whose update succeeds) and a targeted quest for Undo. -/
theorem cancel_undo_frame_conditions_witness :
    (∀ r s2, cancelQuestCompletion
        { profile := ⟨2, 850, 900, 6, ⟨10, 10, 10, 10, 10⟩⟩, groups := [],
          quests := [("q", ⟨none, 100, 5, none⟩)],
          progress := [("q", ⟨1, true, some 0, false, none, none, true⟩)],
          clock := 1 } "q" = .ok (r, s2) → s2.profile.cumulativeXp = 900) ∧
    (∀ r s2, undoQuestCompletion
        { profile := ⟨2, 850, 900, 1, ⟨10, 15, 10, 10, 10⟩⟩, groups := [],
          quests := [("q", ⟨none, 100, 5, some .mental⟩)],
          progress := [("q", ⟨1, true, some 0, false, none, none, true⟩)],
          clock := 1 } "q" = .ok (r, s2) →
      s2.profile.xp = 850 ∧ s2.profile.level = 2) :=
  ⟨fun r s2 hok => cancel_undo_frame_conditions.1 _ "q" r s2 hok,
   fun r s2 hok => cancel_undo_frame_conditions.2 _ "q" r s2 hok⟩

/-- C8: CancelCompletion raises NotFound exactly when the quest id is
unknown, and InvalidState (`Quest not completed`) when the progress row is
missing or not completed; every error leaves the store unchanged (the
checks precede the transaction, so an error writes nothing). -/
theorem cancelQuestCompletion_error_characterization :
    (∀ (s : State) (questId : String),
      lookupEntry s.quests questId = none →
      cancelQuestCompletion s questId = .error .notFound) ∧
    (∀ (s : State) (questId : String) (quest : Quest),
      lookupEntry s.quests questId = some quest →
      (lookupEntry s.progress questId = none ∨
        ∃ r0, lookupEntry s.progress questId = some r0 ∧ r0.completed = false) →
      cancelQuestCompletion s questId = .error .notCompleted) ∧
    (∀ (s : State) (questId : String) (e : StoreError),
      cancelQuestCompletion s questId = .error e →
      applyEngineOp s (.cancel questId) = s) := by
  refine ⟨fun s questId h => cancelQuestCompletion_notFound h, ?_, ?_⟩
  · intro s questId quest hq hbad
    rcases hbad with hnone | ⟨r0, hr0, hc0⟩
    · exact cancelQuestCompletion_noRow hq hnone
    · exact cancelQuestCompletion_notCompleted hq hr0 hc0
  · intro s questId e herr
    simp [applyEngineOp, herr]

/-- Witness for C8: both error shapes at concrete stores. -/
theorem cancelQuestCompletion_error_characterization_witness :
    cancelQuestCompletion
      { profile := defaultProfile, groups := [], quests := [], progress := [],
        clock := 0 } "q" = .error .notFound ∧
    cancelQuestCompletion
      { profile := defaultProfile, groups := [],
        quests := [("q", ⟨none, 100, 1, none⟩)],
        progress := [("q", ⟨0, false, none, false, none, none, true⟩)],
        clock := 0 } "q" = .error .notCompleted ∧
    applyEngineOp
      { profile := defaultProfile, groups := [],
        quests := [("q", ⟨none, 100, 1, none⟩)],
        progress := [("q", ⟨0, false, none, false, none, none, true⟩)],
        clock := 0 } (.cancel "q") =
      { profile := defaultProfile, groups := [],
        quests := [("q", ⟨none, 100, 1, none⟩)],
        progress := [("q", ⟨0, false, none, false, none, none, true⟩)],
        clock := 0 } := by
  refine ⟨cancelQuestCompletion_error_characterization.1 _ "q" (by rfl), ?_, ?_⟩
  · exact cancelQuestCompletion_error_characterization.2.1 _ "q" _ (by rfl)
      (Or.inr ⟨⟨0, false, none, false, none, none, true⟩, by rfl, by rfl⟩)
  · exact cancelQuestCompletion_error_characterization.2.2 _ "q" .notCompleted
      (cancelQuestCompletion_error_characterization.2.1 _ "q" _ (by rfl)
        (Or.inr ⟨⟨0, false, none, false, none, none, true⟩, by rfl, by rfl⟩))

/-- C9 (code behavior at the spec's level-curve scenario): with
xpReward=100, attributePointReward=5, targetAttribute=mental and a profile
at xp=750, level=1, mental=10, the Complete half matches the claim —
xp=850, level=2 (floor(850/800)+1), one level-bonus available point,
mental=15 — but the subsequent Cancel does not return anything: its
jsonb_set set-clause cannot execute, so the call fails with the SQL error
and the transaction rolls back, leaving xp at 850, level at 2, mental at
15 and the row completed, where the claim promises xp=750, level=1,
mental=10 and the bonus point withdrawn. -/
theorem level_curve_scenario :
    ((completeQuest
        { profile := ⟨1, 750, 0, 0, ⟨10, 10, 10, 10, 10⟩⟩, groups := [],
          quests := [("q", ⟨none, 100, 5, some .mental⟩)], progress := [],
          clock := 0 } "q").toOption.map fun r =>
      (r.2.profile.xp, r.2.profile.level, r.2.profile.availablePoints,
        r.2.profile.attributes.mental)) = some (850, 2, 1, 15) ∧
    ((completeQuest
        { profile := ⟨1, 750, 0, 0, ⟨10, 10, 10, 10, 10⟩⟩, groups := [],
          quests := [("q", ⟨none, 100, 5, some .mental⟩)], progress := [],
          clock := 0 } "q").toOption.map fun r =>
      cancelQuestCompletion r.2 "q") = some (.error .sqlError) ∧
    ((completeQuest
        { profile := ⟨1, 750, 0, 0, ⟨10, 10, 10, 10, 10⟩⟩, groups := [],
          quests := [("q", ⟨none, 100, 5, some .mental⟩)], progress := [],
          clock := 0 } "q").toOption.map fun r =>
      (applyEngineOp r.2 (.cancel "q")).profile.xp) = some 850 ∧
    ((completeQuest
        { profile := ⟨1, 750, 0, 0, ⟨10, 10, 10, 10, 10⟩⟩, groups := [],
          quests := [("q", ⟨none, 100, 5, some .mental⟩)], progress := [],
          clock := 0 } "q").toOption.map fun r =>
      (applyEngineOp r.2 (.cancel "q")).profile.attributes.mental) = some 15 := by
  refine ⟨by decide, by rfl, by decide, by decide⟩

end FrameAndErrors

section DeleteCascade

theorem lookupEntry_eq_none_of_not_mem_keys {α : Type} {m : List (String × α)} {k : String}
    (h : k ∉ m.map Prod.fst) : lookupEntry m k = none := by
  induction m with
  | nil => rfl
  | cons e t ih =>
    simp only [List.map_cons, List.mem_cons, not_or] at h
    rw [lookupEntry_cons, if_neg (fun hc : e.1 = k => h.1 hc.symm)]
    exact ih h.2

theorem lookupEntry_filter_none {α : Type} {m : List (String × α)} {k : String}
    (p : String × α → Bool) (h : lookupEntry m k = none) :
    lookupEntry (m.filter p) k = none := by
  induction m with
  | nil => rfl
  | cons e t ih =>
    rw [lookupEntry_cons] at h
    by_cases he : e.1 = k
    · simp [he] at h
    · simp only [if_neg he] at h
      rw [List.filter_cons]
      split
      · rw [lookupEntry_cons, if_neg he]
        exact ih h
      · exact ih h

theorem lookupEntry_filterGroup_none {qs : List (String × Quest)} {groupId questId : String}
    {quest : Quest} (hnd : (qs.map Prod.fst).Nodup)
    (hq : lookupEntry qs questId = some quest) (hg : quest.groupId = some groupId) :
    lookupEntry (qs.filter fun e => decide (e.2.groupId ≠ some groupId)) questId = none := by
  induction qs with
  | nil => simp [lookupEntry] at hq
  | cons e t ih =>
    simp only [List.map_cons, List.nodup_cons] at hnd
    obtain ⟨hout, hndt⟩ := hnd
    by_cases he : e.1 = questId
    · rw [lookupEntry_cons, if_pos he] at hq
      have hge : e.2.groupId = some groupId := by
        rw [Option.some.injEq] at hq
        rw [hq, hg]
      have hpe : (decide (e.2.groupId ≠ some groupId)) = false := by simp [hge]
      rw [List.filter_cons, hpe]
      simp only [Bool.false_eq_true, if_false]
      apply lookupEntry_filter_none
      apply lookupEntry_eq_none_of_not_mem_keys
      rw [← he]
      exact hout
    · rw [lookupEntry_cons, if_neg he] at hq
      rw [List.filter_cons]
      split
      · rw [lookupEntry_cons, if_neg he]
        exact ih hndt hq
      · exact ih hndt hq

/-- C6 (code behavior at the claim): deleteQuestGroup removes the group row
and every quest of the group — a subsequent GetQuest returns none — but it
never touches the quest-progress table, so the claimed cascade to progress
rows does not happen (the per-quest deleteQuest method does delete the
progress row first, and the group delete bypasses it). -/
theorem deleteQuestGroup_cascade_behavior :
    (∀ (s : State) (groupId : String),
      ((deleteQuestGroup s groupId).2).progress = s.progress) ∧
    (∀ (s : State) (groupId questId : String) (quest : Quest),
      (s.quests.map Prod.fst).Nodup →
      lookupEntry s.quests questId = some quest → quest.groupId = some groupId →
      getQuest ((deleteQuestGroup s groupId).2) questId = none) ∧
    (∀ (s : State) (groupId : String),
      lookupEntry ((deleteQuestGroup s groupId).2).groups groupId = none) ∧
    (getQuest ((deleteQuestGroup
        { profile := defaultProfile, groups := [("g", ⟨"group", none, "calendar"⟩)],
          quests := [("q", ⟨some "g", 100, 1, none⟩)],
          progress := [("q", ⟨1, true, some 0, false, none, none, true⟩)],
          clock := 1 } "g").2) "q" = none ∧
      getQuestProgress ((deleteQuestGroup
        { profile := defaultProfile, groups := [("g", ⟨"group", none, "calendar"⟩)],
          quests := [("q", ⟨some "g", 100, 1, none⟩)],
          progress := [("q", ⟨1, true, some 0, false, none, none, true⟩)],
          clock := 1 } "g").2) "q" =
        some ⟨1, true, some 0, false, none, none, true⟩) := by
  refine ⟨fun s groupId => rfl, ?_, ?_, by decide, by decide⟩
  · intro s groupId questId quest hnd hq hg
    exact lookupEntry_filterGroup_none hnd hq hg
  · intro s groupId
    exact lookupEntry_removeEntry_self _ _

/-- Witness for C6's universally quantified parts at the concrete store of
its fourth conjunct. -/
theorem deleteQuestGroup_cascade_behavior_witness :
    ((deleteQuestGroup
        { profile := defaultProfile, groups := [("g", ⟨"group", none, "calendar"⟩)],
          quests := [("q", ⟨some "g", 100, 1, none⟩)],
          progress := [("q", ⟨1, true, some 0, false, none, none, true⟩)],
          clock := 1 } "g").2).progress =
      [("q", ⟨1, true, some 0, false, none, none, true⟩)] ∧
    getQuest ((deleteQuestGroup
        { profile := defaultProfile, groups := [("g", ⟨"group", none, "calendar"⟩)],
          quests := [("q", ⟨some "g", 100, 1, none⟩)],
          progress := [("q", ⟨1, true, some 0, false, none, none, true⟩)],
          clock := 1 } "g").2) "q" = none :=
  ⟨deleteQuestGroup_cascade_behavior.1 _ "g",
   deleteQuestGroup_cascade_behavior.2.1 _ "g" "q" ⟨some "g", 100, 1, none⟩
     (by decide) (by rfl) (by rfl)⟩

end DeleteCascade

section DeleteArchived

/-- C7 (amended): DeleteArchived succeeds — removing the progress row —
exactly when the row exists with isArchived=true; it fails with the same
InvalidState error (`Quest not archived`) both when the row exists with
isArchived=false and when no progress row exists (the source's
`!existingProgress?.isArchived` guard conflates the two cases, so a
missing row does not produce NotFound). -/
theorem deleteArchivedQuest_characterization :
    (∀ (s : State) (questId : String) (r0 : ProgressRow),
      lookupEntry s.progress questId = some r0 → r0.isArchived = true →
      deleteArchivedQuest s questId =
        .ok { s with progress := removeEntry s.progress questId } ∧
      getQuestProgress { s with progress := removeEntry s.progress questId } questId =
        none) ∧
    (∀ (s : State) (questId : String) (r0 : ProgressRow),
      lookupEntry s.progress questId = some r0 → r0.isArchived = false →
      deleteArchivedQuest s questId = .error .notArchived) ∧
    (∀ (s : State) (questId : String),
      lookupEntry s.progress questId = none →
      deleteArchivedQuest s questId = .error .notArchived) := by
  refine ⟨?_, ?_, ?_⟩
  · intro s questId r0 hr0 ha
    exact ⟨deleteArchivedQuest_ok hr0 ha, lookupEntry_removeEntry_self _ _⟩
  · intro s questId r0 hr0 ha
    exact deleteArchivedQuest_notArchived hr0 ha
  · intro s questId h
    exact deleteArchivedQuest_noRow h

/-- Witness for C7 covering all three cases at concrete stores. -/
theorem deleteArchivedQuest_characterization_witness :
    deleteArchivedQuest
      { profile := defaultProfile, groups := [],
        quests := [("q", ⟨none, 100, 1, none⟩)],
        progress := [("q", ⟨1, true, some 0, true, some 1, some "done", true⟩)],
        clock := 2 } "q" =
      .ok { profile := defaultProfile, groups := [],
            quests := [("q", ⟨none, 100, 1, none⟩)], progress := [], clock := 2 } ∧
    deleteArchivedQuest
      { profile := defaultProfile, groups := [],
        quests := [("q", ⟨none, 100, 1, none⟩)],
        progress := [("q", ⟨1, true, some 0, false, none, none, true⟩)],
        clock := 2 } "q" = .error .notArchived ∧
    deleteArchivedQuest
      { profile := defaultProfile, groups := [],
        quests := [("q", ⟨none, 100, 1, none⟩)], progress := [], clock := 2 } "q" =
      .error .notArchived := by
  refine ⟨?_, ?_, ?_⟩
  · exact (deleteArchivedQuest_characterization.1 _ "q"
      ⟨1, true, some 0, true, some 1, some "done", true⟩ (by rfl) (by rfl)).1
  · exact deleteArchivedQuest_characterization.2.1 _ "q"
      ⟨1, true, some 0, false, none, none, true⟩ (by rfl) (by rfl)
  · exact deleteArchivedQuest_characterization.2.2 _ "q" (by rfl)

/-- Counterexample to C7 as stated: with no progress row at all, the source
throws `Quest not archived` (mapped to InvalidState / 400), not the
claimed NotFound. -/
theorem deleteArchivedQuest_missing_row_counterexample :
    deleteArchivedQuest
      { profile := defaultProfile, groups := [],
        quests := [("q", ⟨none, 100, 1, none⟩)], progress := [], clock := 0 } "q" =
      .error .notArchived ∧
    StoreError.notArchived ≠ StoreError.notFound := by
  refine ⟨by rfl, by decide⟩

end DeleteArchived
